import Mathlib

/-!
Verification of the constraint-based type checker in
`lib/Sema/TypeCheckConstraints.cpp` (expression type inference and overload
resolution).  The definitions below are a shallow embedding of the C++
source: each definition's doc comment names the function and source lines it
embeds.  Machine aspects that the claims do not touch (diagnostic recording,
locators, the allocator) are dropped; oracle calls (name lookup, conformance)
become explicit environment parameters.

Types are embedded by the inductive `Ty` below, covering the concrete type
kinds the matcher manipulates: builtins, module types, non-generic nominal
struct/enum types, classes (carrying their superclass chain), tuples,
functions, metatypes, array types, lvalues, protocols, protocol compositions
and bound generic struct types (`Optional` among them).  Type variables are
kept out of `Ty`; the solver-state-dependent paths of the source that handle
them are embedded separately on a wrapper `STy` (for member/conformance
constraints) and on representative maps (for the variable-merge path of
`matchTypes`).

Recursion in `matchTypes` is expressed with an explicit fuel parameter
(structural recursion on the fuel); exhausted fuel yields `Unsolved`
("defer"), and every theorem quantifies over or supplies sufficient fuel.
The structural helpers (`matchTupleTypes`, `matchFunctionTypes`, ...) take
the recursive matcher as a parameter `rec`, mirroring the mutual recursion
of the source.
-/

/-- `ConstraintSystem::SolutionKind` (ConstraintSystem.h): the result of
simplifying or matching. -/
inductive SolutionKind where
  | solved
  | unsolved
  | error
deriving DecidableEq, Repr

/-- `TypeMatchKind` (TypeCheckConstraints.cpp): the strictness of a match,
in increasing order of permissiveness. -/
inductive TypeMatchKind where
  | bindType
  | sameType
  | trivialSubtype
  | subtype
  | conversion
deriving DecidableEq, Repr

/-- Rank giving the total order of `TypeMatchKind` (the C++ enum value). -/
def TypeMatchKind.rank : TypeMatchKind → Nat
  | .bindType => 0
  | .sameType => 1
  | .trivialSubtype => 2
  | .subtype => 3
  | .conversion => 4

/-- `kind >= k` comparisons on `TypeMatchKind` used throughout `matchTypes`. -/
def TypeMatchKind.atLeast (kind k : TypeMatchKind) : Bool :=
  k.rank ≤ kind.rank

/-- `std::min` on match kinds (used for the metatype sub-kind). -/
def TypeMatchKind.minWith (kind k : TypeMatchKind) : TypeMatchKind :=
  if kind.rank ≤ k.rank then kind else k

/-- The relational `ConstraintKind`s (ConstraintSystem.h); only the
relational kinds participate in the claims about type matching. -/
inductive ConstraintKind where
  | bind
  | equal
  | trivialSubtype
  | subtype
  | conversion
deriving DecidableEq, Repr

/-- `getConstraintKind` (lines 1482-1501): map a type-matching kind to a
constraint kind. -/
def getConstraintKind : TypeMatchKind → ConstraintKind
  | .bindType => .bind
  | .sameType => .equal
  | .trivialSubtype => .trivialSubtype
  | .subtype => .subtype
  | .conversion => .conversion

/-- `getTypeMatchKind` (lines 2878-2916), restricted to the relational
constraint kinds (the others are unreachable for type matches). -/
def getTypeMatchKind : ConstraintKind → TypeMatchKind
  | .bind => .bindType
  | .equal => .sameType
  | .trivialSubtype => .trivialSubtype
  | .subtype => .subtype
  | .conversion => .conversion

/-- `ConversionRestrictionKind` (ConstraintSystem.h): the specific
non-structural conversions collected by `matchTypes`. -/
inductive ConversionRestrictionKind where
  | tupleToTuple
  | scalarToTuple
  | tupleToScalar
  | deepEquality
  | superclass
  | lvalueToRValue
  | existential
  | valueToOptional
  | optionalToOptional
  | user
deriving DecidableEq, Repr

mutual
/-- The concrete type grammar (swift AST `TypeBase` kinds reachable in the
matcher).  Classes carry their superclass chain directly: `cls d supers`
is the class declaration `d` whose superclasses are, in order, the classes
named by `supers` (each with the remaining chain as its own superclasses),
standing in for `TC.getSuperClassOf`.  `bound` covers bound generic struct
types, carrying a single generic argument (enough for `Optional`; the
source's loops over all generic arguments reduce to one match); the
`Optional` declaration is distinguished by the environment. -/
inductive Ty where
  | builtin (id : Nat)
  | moduleTy (id : Nat)
  | nominal (decl : Nat)
  | cls (decl : Nat) (supers : List Nat)
  | tuple (elts : List TupleElt)
  | fn (input result : Ty) (autoClosure noReturn : Bool)
  | metaTy (inst : Ty)
  | arr (base : Ty)
  | lval (nonSettable implicitQ : Bool) (obj : Ty)
  | proto (decl : Nat)
  | protoComp (decls : List Nat)
  | bound (decl : Nat) (arg : Ty)

/-- `TupleTypeElt`: element name (empty identifier = `none`), stored type
(for a variadic element this is the slice type, as in the AST), the variadic
flag, and whether the element has a default initializer (`hasInit`). -/
inductive TupleElt where
  | mk (name : Option String) (ty : Ty) (vararg hasInit : Bool)
end

def TupleElt.name : TupleElt → Option String
  | .mk n _ _ _ => n

def TupleElt.ty : TupleElt → Ty
  | .mk _ t _ _ => t

def TupleElt.vararg : TupleElt → Bool
  | .mk _ _ v _ => v

def TupleElt.hasInit : TupleElt → Bool
  | .mk _ _ _ i => i

/-- `TupleTypeElt::hasName`. -/
def TupleElt.hasName (e : TupleElt) : Bool :=
  e.name.isSome

mutual
/-- Structural (canonical-type) equality test for `Ty`; stands for the
pointer equality of canonical types (`desugar1 == desugar2`). -/
def Ty.beq : Ty → Ty → Bool
  | .builtin a, .builtin b => a == b
  | .moduleTy a, .moduleTy b => a == b
  | .nominal a, .nominal b => a == b
  | .cls a s, .cls b s2 => a == b && s == s2
  | .tuple es, .tuple fs => beqTupleElts es fs
  | .fn i r a n, .fn i2 r2 a2 n2 => i.beq i2 && r.beq r2 && a == a2 && n == n2
  | .metaTy a, .metaTy b => a.beq b
  | .arr a, .arr b => a.beq b
  | .lval ns im o, .lval ns2 im2 o2 => ns == ns2 && im == im2 && o.beq o2
  | .proto a, .proto b => a == b
  | .protoComp a, .protoComp b => a == b
  | .bound a x, .bound b y => a == b && x.beq y
  | _, _ => false

def TupleElt.beq : TupleElt → TupleElt → Bool
  | .mk n t v i, .mk n2 t2 v2 i2 => n == n2 && t.beq t2 && v == v2 && i == i2

def beqTupleElts : List TupleElt → List TupleElt → Bool
  | [], [] => true
  | e :: r, f :: s => e.beq f && beqTupleElts r s
  | _, _ => false

end

mutual
theorem Ty.beq_iff : ∀ a b : Ty, a.beq b = true ↔ a = b
  | .builtin _, b => by cases b <;> simp [Ty.beq]
  | .moduleTy _, b => by cases b <;> simp [Ty.beq]
  | .nominal _, b => by cases b <;> simp [Ty.beq]
  | .cls _ _, b => by cases b <;> simp [Ty.beq, and_assoc]
  | .tuple es, b => by
      cases b <;> simp [Ty.beq]
      case tuple fs => exact beqTupleElts_iff es fs
  | .fn i r a n, b => by
      cases b <;> simp [Ty.beq, and_assoc]
      case fn i2 r2 a2 n2 => simp [Ty.beq_iff i i2, Ty.beq_iff r r2]
  | .metaTy a, b => by
      cases b <;> simp [Ty.beq]
      case metaTy b2 => exact Ty.beq_iff a b2
  | .arr a, b => by
      cases b <;> simp [Ty.beq]
      case arr b2 => exact Ty.beq_iff a b2
  | .lval ns im o, b => by
      cases b <;> simp [Ty.beq, and_assoc]
      case lval ns2 im2 o2 => simp [Ty.beq_iff o o2]
  | .proto _, b => by cases b <;> simp [Ty.beq]
  | .protoComp _, b => by cases b <;> simp [Ty.beq]
  | .bound a x, b => by
      cases b <;> simp [Ty.beq, and_assoc]
      case bound b2 y => simp [Ty.beq_iff x y]

theorem TupleElt.beqIff : ∀ a b : TupleElt, a.beq b = true ↔ a = b
  | .mk n t v i, .mk n2 t2 v2 i2 => by
      simp [TupleElt.beq, and_assoc, Ty.beq_iff t t2]

theorem beqTupleElts_iff : ∀ a b : List TupleElt, beqTupleElts a b = true ↔ a = b
  | [], [] => by simp [beqTupleElts]
  | [], _ :: _ => by simp [beqTupleElts]
  | _ :: _, [] => by simp [beqTupleElts]
  | e :: r, f :: s => by
      simp [beqTupleElts, TupleElt.beqIff e f, beqTupleElts_iff r s]
end

instance : DecidableEq Ty := fun a b =>
  if h : a.beq b = true then .isTrue ((Ty.beq_iff a b).mp h)
  else .isFalse (fun he => h ((Ty.beq_iff a b).mpr he))

instance : DecidableEq TupleElt := fun a b =>
  if h : a.beq b = true then .isTrue ((TupleElt.beqIff a b).mp h)
  else .isFalse (fun he => h ((TupleElt.beqIff a b).mpr he))

/-- `Type::getRValueType`: strip an outer lvalue type. -/
def Ty.rvalue : Ty → Ty
  | .lval _ _ o => o
  | t => t

/-- `Type::getClassOrBoundGenericClass` (bound generics embed struct types
only, so classes are exactly `cls`). -/
def Ty.classDecl : Ty → Option Nat
  | .cls d _ => some d
  | _ => none

/-- `Type::mayHaveSuperclass`: class types (class-bounded archetypes are not
part of the grammar). -/
def Ty.mayHaveSuperclass : Ty → Bool
  | .cls _ _ => true
  | _ => false

/-- `Type::isExistentialType(protocols)`: protocol and protocol-composition
types, yielding their protocol declarations. -/
def Ty.protocols : Ty → Option (List Nat)
  | .proto d => some [d]
  | .protoComp ds => some ds
  | _ => none

/-- `Type::isExistentialType()`. -/
def Ty.isExistential (t : Ty) : Bool :=
  t.protocols.isSome

/-- `Type::getNominalOrBoundGenericNominal` is non-null (nominal, class and
bound generic types; archetypes, also accepted by the source check, are not
in the grammar). -/
def Ty.isNominalOrBoundGeneric : Ty → Bool
  | .nominal _ => true
  | .cls _ _ => true
  | .bound _ _ => true
  | _ => false

/-- `Type::is<ModuleType>()`. -/
def Ty.isModule : Ty → Bool
  | .moduleTy _ => true
  | _ => false

/-- `TupleTypeElt::getVarargBaseTy`: the stored type of a variadic element
is its slice (array) type; this recovers the base.  Modelled from the AST
(the header is not part of the source tree). -/
def TupleElt.varargBaseTy (e : TupleElt) : Ty :=
  match e.ty with
  | .arr b => b
  | t => t

/-- `TupleType::getNamedElementId`: index of the first element with the
given (non-empty) name, or -1.  Modelled from the AST (header not in the
source tree). -/
def getNamedElementId (elts : List TupleElt) (nm : String) : Int :=
  go elts 0
where
  go : List TupleElt → Nat → Int
    | [], _ => -1
    | e :: r, i => if e.name = some nm then (i : Int) else go r (i + 1)

/-- `TupleType::getFieldForScalarInit`.  Modelled from the spec ("a scalar
type can be converted to a tuple so long as there is at most one
non-defaulted element"; a variadic element may be left empty): the index of
the unique element with neither a default initializer nor a variadic flag;
-1 when two or more such elements (or no elements at all) exist; 0 when
every element is defaulted or variadic. -/
def getFieldForScalarInit (elts : List TupleElt) : Int :=
  if elts.isEmpty then -1
  else
    match elts.findIdx? (fun e => !e.hasInit && !e.vararg) with
    | none => 0
    | some i =>
      if (elts.drop (i + 1)).any (fun e => !e.hasInit && !e.vararg) then -1
      else (i : Int)

/-! ## Tuple shuffles (`constraints::computeTupleShuffle`, lines 528-634) -/

/-- The `unassigned` marker (line 532). -/
def unassigned : Int := -3

/-- `TupleShuffleExpr::DefaultInitialize` (modelled from the AST, header not
in the source tree). -/
def defaultInitMark : Int := -1

/-- `TupleShuffleExpr::FirstVariadic` (modelled from the AST). -/
def variadicMark : Int := -2

/-- The inner search of the named-matching loop (lines 548-558): the first
source element carrying the wanted name that is not yet consumed. -/
def findUnconsumedNamed (fromElts : List TupleElt) (consumed : List Bool)
    (nm : String) : Option Nat :=
  go fromElts 0
where
  go : List TupleElt → Nat → Option Nat
    | [], _ => none
    | e :: r, j =>
      if e.name = some nm && !(consumed.getD j false) then some j
      else go r (j + 1)

/-- The named-matching phase (lines 539-565): walk the destination elements,
claiming the first unconsumed source element of the same name. -/
def matchNamedElements (fromElts toElts : List TupleElt) :
    List Int × List Bool :=
  go toElts 0 (List.replicate toElts.length unassigned)
    (List.replicate fromElts.length false)
where
  go : List TupleElt → Nat → List Int → List Bool → List Int × List Bool
    | [], _, sources, consumed => (sources, consumed)
    | e :: r, i, sources, consumed =>
      match e.name with
      | none => go r (i + 1) sources consumed
      | some nm =>
        match findUnconsumedNamed fromElts consumed nm with
        | none => go r (i + 1) sources consumed
        | some j => go r (i + 1) (sources.set i (j : Int)) (consumed.set j true)

/-- `skipToNextAvailableInput` (lines 569-572): advance past consumed source
positions, walking the suffix of the consumed mask starting at `i`. -/
def nextAvailFrom : List Bool → Nat → Nat
  | [], i => i
  | b :: r, i => if b then nextAvailFrom r (i + 1) else i

/-- `skipToNextAvailableInput` from absolute position `i`. -/
def skipConsumed (consumed : List Bool) (i : Nat) : Nat :=
  nextAvailFrom (consumed.drop i) i

/-- The variadic-absorption loop (lines 584-596): consume every remaining
unconsumed source element in order, failing on a labeled one.  The source
alternates consume / skip-to-next-available; walking every remaining
position and skipping the consumed ones visits the same elements in the
same order. -/
def absorbVarargs :
    List TupleElt → Nat → List Bool → List Nat →
    Option (List Bool × List Nat)
  | [], _, consumed, varArgs => some (consumed, varArgs)
  | e :: r, j, consumed, varArgs =>
    if consumed.getD j false then absorbVarargs r (j + 1) consumed varArgs
    else if e.hasName then none
    else absorbVarargs r (j + 1) (consumed.set j true) (varArgs ++ [j])

/-- The unmatched-resolution phase (lines 567-633): walk the destination
elements with the running source cursor `fromNext`; `none` is the `return
true` failure of the source.  The final cursor check (lines 626-629) is
performed when the destination list is exhausted, and directly after a
variadic destination element (the source `break`s out of the loop there,
with the cursor at the end by construction). -/
def resolveUnmatched (fromElts : List TupleElt) (mandatory : Bool) :
    List TupleElt → Nat → List Int → List Bool → Nat → List Nat →
    Option (List Int × List Nat)
  | [], _, sources, _consumed, fromNext, varArgs =>
    if fromNext = fromElts.length then some (sources, varArgs) else none
  | e :: r, i, sources, consumed, fromNext, varArgs =>
    if sources.getD i unassigned ≠ unassigned then
      resolveUnmatched fromElts mandatory r (i + 1) sources consumed fromNext
        varArgs
    else if e.vararg then
      match absorbVarargs (fromElts.drop fromNext) fromNext consumed varArgs with
      | none => none
      | some (consumed2, varArgs2) =>
        let sources2 := sources.set i variadicMark
        let fromNext2 := skipConsumed consumed2 fromNext
        if fromNext2 = fromElts.length then some (sources2, varArgs2) else none
    else if fromNext = fromElts.length then
      if e.hasInit then
        resolveUnmatched fromElts mandatory r (i + 1)
          (sources.set i defaultInitMark) consumed fromNext varArgs
      else none
    else
      match fromElts.get? fromNext with
      | none => none
      | some fe =>
        if fe.hasName && (mandatory || e.hasName) then none
        else
          let consumed2 := consumed.set fromNext true
          resolveUnmatched fromElts mandatory r (i + 1)
            (sources.set i (fromNext : Int)) consumed2
            (skipConsumed consumed2 fromNext) varArgs

/-- `constraints::computeTupleShuffle` (lines 528-634).  `none` corresponds
to the source returning `true` (failure); on success the computed `sources`
map (destination position to source position or marker) and the collected
variadic source positions are returned. -/
def computeTupleShuffle (fromElts toElts : List TupleElt)
    (sourceLabelsAreMandatory : Bool) : Option (List Int × List Nat) :=
  let (sources, consumed) := matchNamedElements fromElts toElts
  resolveUnmatched fromElts sourceLabelsAreMandatory toElts 0 sources consumed
    (skipConsumed consumed 0) []

example :
    computeTupleShuffle
      [.mk (some ("x")) (.nominal 1) false false,
       .mk none (.nominal 1) false false]
      [.mk none (.nominal 1) false false,
       .mk (some ("x")) (.nominal 1) false false]
      false = some ([1, 0], []) := by decide

example :
    computeTupleShuffle
      [.mk (some ("x")) (.nominal 1) false false,
       .mk none (.nominal 1) false false]
      [.mk none (.nominal 1) false false,
       .mk none (.nominal 1) false false]
      false = some ([0, 1], []) := by decide

/-! ## Oracles and solver-visible types -/

/-- The oracle capabilities the matcher consumes (spec section 6): protocol
conformance (`TC.conformsToProtocol`), protocol inheritance
(`ProtocolDecl::inheritsFrom`), presence of user-defined conversion members
(`lookupMember(type, __conversion)` nonempty), class-bounded protocols
(for `isClassExistentialType`, modelled), and the identity of the
`Optional` declaration (`TC.Context.getOptionalDecl()`). -/
structure Env where
  conformsTo : Ty → Nat → Bool
  inheritsFrom : Nat → Nat → Bool
  hasConversionMember : Ty → Bool
  protoRequiresClass : Nat → Bool
  optionalDecl : Nat

/-- `Type::isClassExistentialType` (modelled: a protocol or composition some
of whose protocols require a class; the AST header is not in the source
tree). -/
def Ty.isClassExistentialType (env : Env) (t : Ty) : Bool :=
  match t.protocols with
  | some ps => ps.any env.protoRequiresClass
  | none => false

/-- A solver-visible type: either a type variable whose equivalence class
has no fixed type yet, or a resolved concrete type.  Used by the
constraint-simplification routines that defer on unresolved variables. -/
inductive STy where
  | tvar (n : Nat)
  | conc (t : Ty)
deriving DecidableEq

/-- `ConstraintSystem::simplifyConformsToConstraint` (lines 2322-2360):
defer while the type is an unbound variable; for existential containment
(`allowNonConformingExistential`) scan the existential's protocols for one
equal to the target or inheriting from it; otherwise ask the conformance
oracle.  Failure records `DoesNotConformToProtocol`. -/
def simplifyConformsToConstraint (env : Env) (t : STy) (protocol : Nat)
    (allowNonConformingExistential : Bool) : SolutionKind :=
  match t with
  | .tvar _ => .unsolved
  | .conc ty0 =>
    let ty := ty0.rvalue
    match allowNonConformingExistential, ty.protocols with
    | true, some ps =>
      if ps.any (fun ap => ap == protocol || env.inheritsFrom ap protocol)
      then .solved else .error
    | _, _ => if env.conformsTo ty protocol then .solved else .error

/-- `ConstraintSystem::matchExistentialTypes` (lines 1451-1479): the first
type must conform to each protocol of the (existential) second type.  The
`Unsolved` arm of the source adds a deferred `ConformsTo` constraint and
continues; for a concrete first type it is unreachable. -/
def matchExistentialTypes (env : Env) (t1 t2 : Ty) : SolutionKind :=
  match t2.protocols with
  | none => .error
  | some ps => go ps
where
  go : List Nat → SolutionKind
    | [] => .solved
    | p :: r =>
      match simplifyConformsToConstraint env (.conc t1) p false with
      | .error => .error
      | _ => go r

/-- `shouldTryUserConversion` (lines 1504-1516): nominal (or archetype) type
with a `__conversion` member. -/
def shouldTryUserConversion (env : Env) (t : Ty) : Bool :=
  t.isNominalOrBoundGeneric && env.hasConversionMember t

/-- The result of `tryUserConversion` (lines 1521-1572): for a type with
user conversions it installs the member and conversion constraints on fresh
type variables and reports `Solved`; otherwise `Unsolved`. -/
def tryUserConversionResult (env : Env) (t : Ty) : SolutionKind :=
  if t.isNominalOrBoundGeneric && env.hasConversionMember t then .solved
  else .unsolved

/-! ## Committing to collected conversions (lines 1964-2006) -/

/-- What the tail of `matchTypes` does with the collected potential
conversions: fail / defer, recurse into the single candidate's matcher, or
install a disjunction (one alternative per candidate) and report `Solved`. -/
inductive CommitResult where
  | unsolved
  | error
  | single (r : ConversionRestrictionKind)
  | disjunction (alts : List (ConstraintKind × ConversionRestrictionKind))
deriving DecidableEq

/-- The `commit_to_conversions` tail of `matchTypes` (lines 1964-2006): with
no candidates the match is `Unsolved` if a type variable is still involved
and `Error` otherwise; one candidate is dispatched directly; several become
a disjunction (a `DeepEquality` alternative is built with the `Equal`
constraint kind, the rest with the kind of the match) and the call reports
`Solved`. -/
def commitToConversions (cands : List ConversionRestrictionKind)
    (typeVarInvolved : Bool) (kind : TypeMatchKind) : CommitResult :=
  match cands with
  | [] => if typeVarInvolved then .unsolved else .error
  | [r] => .single r
  | _ => .disjunction (cands.map fun r =>
      (if r = .deepEquality then ConstraintKind.equal else getConstraintKind kind,
       r))

/-! ## The type matchers -/

/-- The recursive matcher, abstracted so that the structural helpers mirror
the mutual recursion of the source. -/
abbrev MatchFn := Ty → Ty → TypeMatchKind → SolutionKind

/-- The successive superclasses of a class type (the chain walked by
`super1 = TC.getSuperClassOf(type1); ...; super1 = TC.getSuperClassOf(super1)`). -/
def superclassChain : List Nat → List Ty
  | [] => []
  | d :: rest => .cls d rest :: superclassChain rest

def Ty.superclasses : Ty → List Ty
  | .cls _ supers => superclassChain supers
  | _ => []

/-- `ConstraintSystem::matchSuperclassTypes` (lines 1366-1390): walk the
superclasses of the first type; on the first one whose class declaration is
that of the second type, match the two with `SameType`; otherwise fail. -/
def matchSuperclassTypes (rec : MatchFn) (t1 t2 : Ty)
    (_kind : TypeMatchKind) : SolutionKind :=
  go t1.superclasses
where
  go : List Ty → SolutionKind
    | [] => .error
    | s :: rest =>
      if s.classDecl = t2.classDecl then rec s t2 .sameType else go rest

/-- `ConstraintSystem::matchFunctionTypes` (lines 1266-1344): auto-closure
and no-return flag compatibility, then contravariant input and covariant
result matching at the lowered sub-kind.  As in the source, an `Unsolved`
from the input match is overwritten by the result of the result match. -/
def matchFunctionTypes (rec : MatchFn) (input1 result1 : Ty) (ac1 nr1 : Bool)
    (input2 result2 : Ty) (ac2 nr2 : Bool) (kind : TypeMatchKind) :
    SolutionKind :=
  if ac1 ≠ ac2 ∧ (ac2 = true ∨ kind.atLeast .trivialSubtype = false) then
    .error
  else if nr1 ≠ nr2 ∧ (nr2 = true ∨ kind.atLeast .sameType = false) then
    .error
  else
    let subKind : TypeMatchKind :=
      match kind with
      | .bindType | .sameType | .trivialSubtype => kind
      | .subtype => .trivialSubtype
      | .conversion => .subtype
    match rec input2 input1 subKind with
    | .error => .error
    | _ =>
      match rec result1 result2 subKind with
      | .error => .error
      | .solved => .solved
      | .unsolved => .unsolved

/-- The element loop of the strict (sub-`Conversion`) tuple match
(lines 1103-1164): name conflicts, variadic flags, element types. -/
def matchTupleEltsStruct (rec : MatchFn) (full1 : List TupleElt)
    (kind : TypeMatchKind) : List TupleElt → List TupleElt → SolutionKind
  | [], _ => .solved
  | _, [] => .solved
  | e1 :: r1, e2 :: r2 =>
    let nameConflict : Bool :=
      if e1.name = e2.name then false
      else if kind = .sameType then true
      else
        match e2.name with
        | none => false
        | some nm => getNamedElementId full1 nm != -1
    if nameConflict then .error
    else if e1.vararg ≠ e2.vararg then .error
    else
      match rec e1.ty e2.ty kind with
      | .error => .error
      | _ => matchTupleEltsStruct rec full1 kind r1 r2

/-- The shuffled-element loop of the `Conversion` tuple match
(lines 1186-1217): skip default-initialized and variadic positions, convert
each matched source element to its destination element. -/
def matchShuffledElts (rec : MatchFn) (elts1 : List TupleElt) :
    List Int → List TupleElt → SolutionKind
  | [], _ => .solved
  | _, [] => .solved
  | s :: ss, e2 :: r2 =>
    if s = defaultInitMark ∨ s = variadicMark then
      matchShuffledElts rec elts1 ss r2
    else
      match elts1.get? s.toNat with
      | none => .error
      | some e1 =>
        match rec e1.ty e2.ty .conversion with
        | .error => .error
        | _ => matchShuffledElts rec elts1 ss r2

/-- The variadic-argument loop of the `Conversion` tuple match
(lines 1220-1237): convert each absorbed source element to the variadic
base type of the last destination element. -/
def matchVariadicElts (rec : MatchFn) (elts1 : List TupleElt)
    (eltType2 : Ty) : List Nat → SolutionKind
  | [] => .solved
  | i :: r =>
    match elts1.get? i with
    | none => .error
    | some e1 =>
      match rec e1.ty eltType2 .conversion with
      | .error => .error
      | _ => matchVariadicElts rec elts1 eltType2 r

/-- `ConstraintSystem::matchTupleTypes` (lines 1084-1240): below
`Conversion`, arities must agree and elements are matched in place; at
`Conversion`, an explicit tuple shuffle is computed first and drives the
element matching. -/
def matchTupleTypes (rec : MatchFn) (mandatory : Bool)
    (elts1 elts2 : List TupleElt) (kind : TypeMatchKind) : SolutionKind :=
  if kind.atLeast .conversion = false then
    if elts1.length ≠ elts2.length then .error
    else matchTupleEltsStruct rec elts1 kind elts1 elts2
  else
    match computeTupleShuffle elts1 elts2 mandatory with
    | none => .error
    | some (sources, variadicArgs) =>
      match matchShuffledElts rec elts1 sources elts2 with
      | .error => .error
      | _ =>
        if sources.contains variadicMark then
          match elts2.getLast? with
          | none => .solved
          | some e2 => matchVariadicElts rec elts1 e2.varargBaseTy variadicArgs
        else .solved

/-- `ConstraintSystem::matchDeepEqualityTypes` (lines 1392-1449): non-generic
nominal types (no parents in this grammar) agree outright; bound generic
types match their generic arguments (a single argument here) exactly with
`SameType`, the loop of lines 1430-1446.  Other shapes violate the source's
casts. -/
def matchDeepEqualityTypes (rec : MatchFn) (t1 t2 : Ty) : SolutionKind :=
  match t1, t2 with
  | .nominal _, .nominal _ => .solved
  | .nominal _, .cls _ _ => .solved
  | .cls _ _, .nominal _ => .solved
  | .cls _ _, .cls _ _ => .solved
  | .bound _ a1, .bound _ a2 =>
    match rec a1 a2 .sameType with
    | .error => .error
    | _ => .solved
  | _, _ => .error

/-- `ConstraintSystem::matchScalarToTupleTypes` (lines 1242-1252). -/
def matchScalarToTupleTypes (rec : MatchFn) (t1 : Ty)
    (elts2 : List TupleElt) (kind : TypeMatchKind) : SolutionKind :=
  let idx := getFieldForScalarInit elts2
  if idx < 0 then .error
  else
    match elts2.get? idx.toNat with
    | none => .error
    | some elt =>
      let scalarFieldTy := if elt.vararg then elt.varargBaseTy else elt.ty
      rec t1 scalarFieldTy kind

/-- `ConstraintSystem::matchTupleToScalarTypes` (lines 1254-1264); the
source asserts a single, non-variadic element. -/
def matchTupleToScalarTypes (rec : MatchFn) (elts1 : List TupleElt)
    (t2 : Ty) (kind : TypeMatchKind) : SolutionKind :=
  match elts1 with
  | [e] => rec e.ty t2 kind
  | _ => .error

/-- LValue qualifier strict order `q1 < q2` (modelled from the spec: the
qualifier set of `q1` is a strict subset of that of `q2`; the qualifier
type lives in a header outside the source tree).  Qualifiers are the pair
(nonSettable, implicit). -/
def qualLt (q1 q2 : Bool × Bool) : Bool :=
  (!q1.1 || q2.1) && (!q1.2 || q2.2) && (q1 != q2)

/-- The result type of an auto-closure function type, for the implicit
closure-forming conversion (lines 1914-1919). -/
def Ty.autoClosureResult : Ty → Option Ty
  | .fn _ r true _ => some r
  | _ => none

/-- The collection of potential non-structural conversions of `matchTypes`
(lines 1700-1762, 1831-1841 for the structural candidates; 1845-1962 for the
rest).  The scalar-to-tuple case commits early (the `goto
commit_to_conversions` of line 1880), cutting off the later candidates.
The `concrete` guard of the source is identically true here (no type
variables in the grammar). -/
def collectRestrictions (env : Env) (t1 t2 : Ty) (kind : TypeMatchKind) :
    List ConversionRestrictionKind :=
  let structural : List ConversionRestrictionKind :=
    match t1, t2 with
    | .tuple _, .tuple _ => [.tupleToTuple]
    | .nominal d1, .nominal d2 => if d1 = d2 then [.deepEquality] else []
    | .cls d1 _, .cls d2 _ => if d1 = d2 then [.deepEquality] else []
    | .bound d1 _, .bound d2 _ => if d1 = d2 then [.deepEquality] else []
    | _, _ => []
  let tuple1 : Option (List TupleElt) :=
    match t1 with
    | .tuple es => some es
    | _ => none
  let tuple2 : Option (List TupleElt) :=
    match t2 with
    | .tuple es => some es
    | _ => none
  -- lines 1854-1863: scalar-init fields with mismatched names
  let mismatchedNames : Bool :=
    match tuple1, tuple2 with
    | some es1, some es2 =>
      let s1 := getFieldForScalarInit es1
      let s2 := getFieldForScalarInit es2
      if 0 ≤ s1 ∧ 0 ≤ s2 then
        match es1.get? s1.toNat, es2.get? s2.toNat with
        | some f1, some f2 => f1.name ≠ none ∧ f1.name ≠ f2.name
        | _, _ => false
      else false
    | _, _ => false
  -- lines 1865-1882: scalar-to-tuple, committing early via the goto
  let scalarGoto : Bool :=
    kind.atLeast .trivialSubtype &&
    (match tuple2 with
     | some es2 =>
       !mismatchedNames &&
       ((match es2 with
         | [e] => !e.vararg
         | _ => false) ||
        (kind.atLeast .conversion && decide (0 ≤ getFieldForScalarInit es2)))
     | none => false)
  if scalarGoto then structural ++ [.scalarToTuple]
  else
    -- lines 1884-1891: tuple-to-scalar
    let tupleToScalarC : List ConversionRestrictionKind :=
      if kind.atLeast .trivialSubtype then
        match tuple1 with
        | some es1 =>
          if !mismatchedNames &&
              (match es1 with
               | [e] => !e.vararg
               | _ => false) then [.tupleToScalar]
          else []
        | none => []
      else []
    -- lines 1893-1899: subclass-to-superclass
    let superclassC : List ConversionRestrictionKind :=
      if kind.atLeast .trivialSubtype ∧ t1.mayHaveSuperclass = true ∧
          t2.mayHaveSuperclass = true ∧ t2.classDecl ≠ none ∧
          t1.classDecl ≠ t2.classDecl then [.superclass]
      else []
    -- lines 1902-1910: lvalue-to-rvalue loading
    let lvalueC : List ConversionRestrictionKind :=
      if kind.atLeast .conversion then
        match t1 with
        | .lval _ true _ => [.lvalueToRValue]
        | _ => []
      else []
    -- lines 1922-1931: existential conversions
    let existentialC : List ConversionRestrictionKind :=
      if t2.isExistential = true ∧
          (kind.atLeast .conversion = true ∨
           (kind = .subtype ∧
            (t1.isExistential = true ∨ t2.isClassExistentialType env = true)))
      then [.existential]
      else []
    -- lines 1933-1955: optional conversions
    let optionalC : List ConversionRestrictionKind :=
      if kind.atLeast .conversion then
        match t2 with
        | .bound d2 _ =>
          if d2 = env.optionalDecl then
            (match t1 with
             | .bound d1 _ =>
               if d1 = env.optionalDecl then [.optionalToOptional] else []
             | _ => []) ++ [.valueToOptional]
          else []
        | _ => []
      else []
    -- lines 1957-1962: user-defined conversions
    let userC : List ConversionRestrictionKind :=
      if kind.atLeast .conversion ∧ shouldTryUserConversion env t1 = true then
        [.user]
      else []
    structural ++ tupleToScalarC ++ superclassC ++ lvalueC ++ existentialC ++
      optionalC ++ userC

/-- The dispatch on a single collected conversion (lines 2008-2062); the
catch-alls handle shapes with which the source's casts would be violated. -/
def dispatchRestriction (env : Env) (mandatory : Bool) (rec : MatchFn)
    (t1 t2 : Ty) (kind : TypeMatchKind) :
    ConversionRestrictionKind → SolutionKind
  | .tupleToTuple =>
    match t1, t2 with
    | .tuple es1, .tuple es2 => matchTupleTypes rec mandatory es1 es2 kind
    | _, _ => .error
  | .scalarToTuple =>
    match t2 with
    | .tuple es2 => matchScalarToTupleTypes rec t1 es2 kind
    | _ => .error
  | .tupleToScalar =>
    match t1 with
    | .tuple es1 => matchTupleToScalarTypes rec es1 t2 kind
    | _ => .error
  | .deepEquality => matchDeepEqualityTypes rec t1 t2
  | .superclass => matchSuperclassTypes rec t1 t2 kind
  | .lvalueToRValue => rec t1.rvalue t2 kind
  | .existential => matchExistentialTypes env t1 t2
  | .valueToOptional =>
    match t2 with
    | .bound _ a => rec t1 a kind
    | _ => .error
  | .optionalToOptional =>
    match t1, t2 with
    | .bound _ a, .bound _ b => rec a b kind
    | _, _ => .error
  | .user => tryUserConversionResult env t1

/-- One unfolding of `ConstraintSystem::matchTypes` (lines 1574-2063) on
concrete (variable-free) types, parameterized by the recursive matcher.
The `mandatory` flag stands for `hasMandatoryTupleLabels(locator)`.
Resolution of fixed types (lines 1578-1588) reduces to the rvalue
adjustment performed for `SameType`; the structural switch handles
same-kind pairs, and everything else flows into the candidate collection
and the commit tail. -/
def matchTypesBody (env : Env) (mandatory : Bool) (rec : MatchFn)
    (type1 type2 : Ty) (kind : TypeMatchKind) : SolutionKind :=
  let t1 := if kind = .sameType then type1.rvalue else type1
  let t2 := if kind = .sameType then type2.rvalue else type2
  if t1 = t2 then .solved
  else
    match t1, t2 with
    | .builtin _, .builtin _ => .error
    | .moduleTy _, .moduleTy _ => .error
    | .metaTy i1, .metaTy i2 =>
      let subKind :=
        if kind ≠ .sameType ∧
            (i1.mayHaveSuperclass = true ∨ i2.classDecl ≠ none)
        then kind.minWith .subtype else .sameType
      rec i1 i2 subKind
    | .fn i1 r1 a1 n1, .fn i2 r2 a2 n2 =>
      matchFunctionTypes rec i1 r1 a1 n1 i2 r2 a2 n2 kind
    | .arr b1, .arr b2 => rec b1 b2 .sameType
    | .lval ns1 im1 o1, .lval ns2 im2 o2 =>
      if (ns1, im1) ≠ (ns2, im2) ∧
          ¬(kind.atLeast .trivialSubtype = true ∧
            qualLt (ns1, im1) (ns2, im2) = true) then .error
      else rec o1 o2 .sameType
    | x1, x2 =>
      let committed :=
        match commitToConversions (collectRestrictions env x1 x2 kind) false
            kind with
        | .unsolved => SolutionKind.unsolved
        | .error => .error
        | .disjunction _ => .solved
        | .single r => dispatchRestriction env mandatory rec x1 x2 kind r
      if kind.atLeast .conversion then
        match x2.autoClosureResult with
        | some fres => rec x1 fres kind
        | none => committed
      else committed

/-- `ConstraintSystem::matchTypes` on concrete types, with a fuel bound on
the recursion depth; exhausted fuel defers (`Unsolved`). -/
def matchTypes : Nat → Env → Bool → Ty → Ty → TypeMatchKind → SolutionKind
  | 0, _, _, _, _, _ => .unsolved
  | fuel + 1, env, mandatory, t1, t2, kind =>
    matchTypesBody env mandatory (matchTypes fuel env mandatory) t1 t2 kind

/-- An environment in which every oracle query fails and `Optional` is
declaration 0. -/
def env0 : Env := ⟨fun _ _ => false, fun _ _ => false, fun _ => false,
  fun _ => false, 0⟩

example :
    matchTypes 5 env0 false (.nominal 1) (.bound 0 (.nominal 1)) .subtype
      = .error := by decide

example :
    matchTypes 5 env0 false (.nominal 1) (.bound 0 (.nominal 1)) .conversion
      = .solved := by decide

example :
    matchTypes 5 env0 false (.lval false true (.builtin 0)) (.builtin 0)
      .sameType = .solved := by decide

example :
    matchTypes 5 env0 false (.lval false true (.builtin 0)) (.builtin 0)
      .subtype = .error := by decide

/-! ## Relational constraints with a pre-selected restriction
(`ConstraintSystem::simplifyConstraint`, lines 2918-3041) -/

/-- The relational-constraint fragment of `simplifyConstraint` for a
constraint that carries a pre-selected conversion restriction (lines
2929-3036): the matcher for that restriction is invoked directly rather
than the general `matchTypes` dispatch; when the result is `Solved` and the
constraint is a `Conversion` constraint, the used restriction is recorded
against the active solver state (lines 3019-3033) — except that the
`DeepEquality` case returns before the recording switch (lines 2958-2961).
The second component of the result is whether the restriction was
recorded. -/
def simplifyRestrictedConstraint (fuel : Nat) (env : Env) (mandatory : Bool)
    (ck : ConstraintKind) (r : ConversionRestrictionKind) (t1 t2 : Ty) :
    SolutionKind × Bool :=
  let matchKind := getTypeMatchKind ck
  let matcher := matchTypes fuel env mandatory
  match r with
  | .deepEquality => (matchDeepEqualityTypes matcher t1 t2, false)
  | _ =>
    let result : SolutionKind :=
      match r, t1, t2 with
      | .tupleToTuple, .tuple es1, .tuple es2 =>
        matchTupleTypes matcher mandatory es1 es2 matchKind
      | .tupleToTuple, _, _ => .error
      | .scalarToTuple, _, .tuple es2 =>
        matchScalarToTupleTypes matcher t1 es2 matchKind
      | .scalarToTuple, _, _ => .error
      | .tupleToScalar, .tuple es1, _ =>
        matchTupleToScalarTypes matcher es1 t2 matchKind
      | .tupleToScalar, _, _ => .error
      | .superclass, _, _ => matchSuperclassTypes matcher t1 t2 matchKind
      | .lvalueToRValue, _, _ => matcher t1.rvalue t2 matchKind
      | .existential, _, _ => matchExistentialTypes env t1 t2
      | .valueToOptional, _, .bound _ a => matcher t1 a matchKind
      | .valueToOptional, _, _ => .error
      | .optionalToOptional, .bound _ a, .bound _ b => matcher a b matchKind
      | .optionalToOptional, _, _ => .error
      | .user, _, _ => tryUserConversionResult env t1
      | .deepEquality, _, _ => .error
    (result, result == .solved && ck == ConstraintKind.conversion)

/-! ## The Bind/Equal two-type-variable path of `matchTypes`
(lines 1594-1630) -/

/-- What the two-variable `BindType`/`SameType` branch does: nothing (same
equivalence class), add a relational constraint between the two
representatives, defer, or merge the two equivalence classes. -/
inductive TypeVarMatchResult where
  | alreadyMerged
  | constraintAdded (ck : ConstraintKind) (rep1 rep2 : Nat)
  | deferred
  | merged (rep1 rep2 : Nat)
deriving DecidableEq, Repr

/-- The `SolutionKind` the branch reports for each outcome. -/
def TypeVarMatchResult.toSolutionKind : TypeVarMatchResult → SolutionKind
  | .deferred => .unsolved
  | _ => .solved

/-- The `BindType`/`SameType` branch of `matchTypes` for two unbound type
variables (lines 1599-1628): identical representatives are trivially
solved; when exactly one representative can bind to an lvalue the classes
are not merged — with `TMF_GenerateConstraints` a new relational constraint
between the two representatives is added and the match reports `Solved`,
without it the match is `Unsolved`; otherwise the classes are merged
(`mergeEquivalenceClasses`). -/
def matchTypeVariables (rep : Nat → Nat) (canBindLValue : Nat → Bool)
    (generateConstraints : Bool) (kind : TypeMatchKind) (tv1 tv2 : Nat) :
    TypeVarMatchResult :=
  let r1 := rep tv1
  let r2 := rep tv2
  if r1 = r2 then .alreadyMerged
  else if canBindLValue r1 ≠ canBindLValue r2 then
    if generateConstraints then .constraintAdded (getConstraintKind kind) r1 r2
    else .deferred
  else .merged r1 r2

/-! ## Member constraints (`ConstraintSystem::simplifyMemberConstraint`,
lines 2493-2702) -/

/-- The declaration metadata the member resolver consults through the
oracles (`validateDecl`/`isInvalid`, `isInstanceMember`, `isa<FuncDecl>`,
and whether the signature involves associated types or Self, lines
2472-2491). -/
structure MemberDecl where
  id : Nat
  isInvalid : Bool
  isInstanceMember : Bool
  isFunc : Bool
  involvesAssociatedTypes : Bool
deriving DecidableEq, Repr

/-- The name-lookup oracles (`lookupMember`, `TC.lookupConstructors`,
`TC.lookupMemberType`) and the identity of the `DynamicLookup` protocol. -/
structure MemberEnv where
  lookupMember : Ty → String → List MemberDecl
  lookupConstructors : Ty → List MemberDecl
  lookupMemberType : Ty → String → List MemberDecl
  dynamicLookupProto : Nat

/-- `OverloadChoice` variants reachable from member simplification. -/
inductive OverloadChoice where
  | decl (id : Nat)
  | declViaDynamic (id : Nat)
  | baseType
  | tupleIndex (i : Nat)
deriving DecidableEq, Repr

/-- The outcome of simplifying a member constraint: solved with the
installed overload choices (one choice binds directly, several install a
disjunction), deferred, failed with `DoesNotHaveMember`, or a violation of
the `addOverloadSet` non-empty assertion (line 1046). -/
inductive MemberOutcome where
  | solved (choices : List OverloadChoice)
  | unsolved
  | error
  | invariantViolation
deriving DecidableEq, Repr

/-- `ValueMember` vs `TypeMember` constraints. -/
inductive MemberConstraintKind where
  | valueMember
  | typeMember
deriving DecidableEq, Repr

/-- `StringRef::getAsInteger(10, value)` (modelled from LLVM; not in the
source tree): parse a nonempty all-digit string as a decimal value. -/
def decimalValue? (s : String) : Option Nat :=
  if s.isEmpty then none
  else if s.data.all (fun c => c.isDigit) then
    some (s.data.foldl (fun a c => a * 10 + (c.toNat - 48)) 0)
  else none

/-- Resolution of a member name against a tuple base (lines 2516-2525): a
decimal name in range selects that position, otherwise the name is looked
up among the element names. -/
def tupleFieldIndex (elts : List TupleElt) (nm : String) : Int :=
  match decimalValue? nm with
  | some v => if v < elts.length then (v : Int) else getNamedElementId elts nm
  | none => getNamedElementId elts nm

/-- `ConstraintSystem::simplifyMemberConstraint` (lines 2493-2702): defer
while the base's instance type is an unbound type variable (line 2508);
resolve tuple members by index or name; constructors, type members and
general value members via the lookup oracles with the context filters of
lines 2647-2692; an empty lookup for a `ValueMember` whose name parses as
decimal 0 resolves to the base type itself (lines 2617-2626). -/
def simplifyMemberConstraint (env : MemberEnv) (kind : MemberConstraintKind)
    (base : STy) (name : String) : MemberOutcome :=
  match base with
  | .tvar _ => .unsolved
  | .conc t =>
    let baseObjTy := t.rvalue
    let instanceTy := match baseObjTy with
      | .metaTy i => i
      | _ => baseObjTy
    let isMetatype := match baseObjTy with
      | .metaTy _ => true
      | _ => false
    match baseObjTy with
    | .tuple elts =>
      let fieldIdx := tupleFieldIndex elts name
      if fieldIdx = -1 then .error
      else .solved [.tupleIndex fieldIdx.toNat]
    | _ =>
      let isExistential := instanceTy.isExistential
      if name = ("init") then
        let ctors := env.lookupConstructors baseObjTy
        if ctors.isEmpty then .error
        else
          let choices := (ctors.filter fun c =>
            !c.isInvalid && !(isExistential && c.involvesAssociatedTypes)).map
            (fun c => OverloadChoice.decl c.id)
          if choices.isEmpty then .error
          else .solved choices
      else
        match kind with
        | .typeMember =>
          let lookup := env.lookupMemberType baseObjTy name
          if lookup.isEmpty then .error
          else
            let choices := (lookup.filter fun c => !c.isInvalid).map
              (fun c => OverloadChoice.decl c.id)
            if choices.isEmpty then .invariantViolation
            else .solved choices
        | .valueMember =>
          let lookup := env.lookupMember baseObjTy name
          if lookup.isEmpty then
            match decimalValue? name with
            | some idx => if idx = 0 then .solved [.baseType] else .error
            | none => .error
          else
            let isDynamicLookup := match instanceTy with
              | .proto d => d = env.dynamicLookupProto
              | _ => false
            let choices := lookup.filterMap fun d =>
              if d.isInvalid then none
              else if isExistential && d.involvesAssociatedTypes then none
              else if isMetatype && !(d.isFunc || !d.isInstanceMember) then
                none
              else if !isMetatype && !baseObjTy.isModule &&
                  !d.isInstanceMember then none
              else if isDynamicLookup && isMetatype && d.isInstanceMember then
                none
              else if isDynamicLookup then
                some (OverloadChoice.declViaDynamic d.id)
              else some (OverloadChoice.decl d.id)
            if choices.isEmpty then .error
            else .solved choices

/-! ## Ranking (`ConstraintSystem::findBestSolution`, lines 3720-3836) -/

/-- `SolutionCompareResult` (ConstraintSystem.h): the verdict of
`compareSolutions` on a pair of solutions. -/
inductive SolutionCompareResult where
  | identical
  | incomparable
  | worse
  | better
deriving DecidableEq, Repr

/-- The first pass of `findBestSolution` (lines 3731-3750): scan solutions
1..n-1 against the running best, marking losers.  `remaining` counts the
iterations left, `i` is the current index. -/
def bestPass (cmp : Nat → Nat → SolutionCompareResult) :
    Nat → Nat → Nat → List Bool → Nat × List Bool
  | 0, _, best, losers => (best, losers)
  | remaining + 1, i, best, losers =>
    match cmp i best with
    | .worse => bestPass cmp remaining (i + 1) best (losers.set i true)
    | .better => bestPass cmp remaining (i + 1) i (losers.set best true)
    | _ => bestPass cmp remaining (i + 1) best losers

/-- The verification pass (lines 3752-3780): compare the candidate best
against every other solution, stopping at the first ambiguity (`Worse`
marks the candidate a loser first, as in the fallthrough of line 3770).
Returns whether ambiguity was detected and the updated losers. -/
def verifyPass (cmp : Nat → Nat → SolutionCompareResult) (best : Nat) :
    Nat → Nat → List Bool → Bool × List Bool
  | 0, _, losers => (false, losers)
  | remaining + 1, i, losers =>
    if i = best then verifyPass cmp best remaining (i + 1) losers
    else
      match cmp best i with
      | .identical => verifyPass cmp best remaining (i + 1) losers
      | .better => verifyPass cmp best remaining (i + 1) (losers.set i true)
      | .worse => (true, losers.set best true)
      | .incomparable => (true, losers)

/-- The inner loop of the ambiguity sweep (lines 3794-3816): compare `i`
against each later `j` that has not already lost, marking whichever side is
strictly beaten; the loop continues even after `i` loses. -/
def sweepInner (cmp : Nat → Nat → SolutionCompareResult) (i : Nat) :
    Nat → Nat → List Bool → List Bool
  | 0, _, losers => losers
  | remaining + 1, j, losers =>
    if losers.getD j false then sweepInner cmp i remaining (j + 1) losers
    else
      match cmp i j with
      | .better => sweepInner cmp i remaining (j + 1) (losers.set j true)
      | .worse => sweepInner cmp i remaining (j + 1) (losers.set i true)
      | _ => sweepInner cmp i remaining (j + 1) losers

/-- The outer loop of the ambiguity sweep (lines 3788-3817): skip solutions
that already lost, sweep the rest against all later solutions. -/
def sweepOuter (cmp : Nat → Nat → SolutionCompareResult) (n : Nat) :
    Nat → Nat → List Bool → List Bool
  | 0, _, losers => losers
  | remaining + 1, i, losers =>
    if losers.getD i false then sweepOuter cmp n remaining (i + 1) losers
    else
      sweepOuter cmp n remaining (i + 1)
        (sweepInner cmp i (n - (i + 1)) (i + 1) losers)

/-- `ConstraintSystem::findBestSolution` (lines 3720-3836) over an abstract
pairwise comparator on solution indices (standing for `compareSolutions` on
the `viable` array).  Returns the chosen index (`Nothing` = `none`)
together with the indices remaining in `viable`: the erase loop of lines
3819-3833 keeps exactly the non-losers, and runs only on the minimizing
ambiguous path. -/
def findBestSolution (cmp : Nat → Nat → SolutionCompareResult) (n : Nat)
    (minimize : Bool) : Option Nat × List Nat :=
  if n = 0 then (none, [])
  else if n = 1 then (some 0, [0])
  else
    let p1 := bestPass cmp (n - 1) 1 0 (List.replicate n false)
    let best := p1.1
    let p2 := verifyPass cmp best n 0 p1.2
    if p2.1 = false then (some best, List.range n)
    else if minimize = false then (none, List.range n)
    else
      let losers := sweepOuter cmp n n 0 p2.2
      (none, (List.range n).filter (fun i => !(losers.getD i false)))

/-! ## The specification's statement of existential containment -/

/-- The containment condition exactly as the specification sentence states
it: some interface of the existential equals the target interface or is
inherited by the target interface (the target inherits from it).  To be
compared with the source's condition in
`simplifyConformsToConstraint` (line 2346). -/
def specExistentialContainment (env : Env) (ps : List Nat) (target : Nat) :
    Bool :=
  ps.any (fun ap => ap == target || env.inheritsFrom target ap)

/-! ## Lvalue-free, variadic-free types

The monotonicity of `matchTypes` in the match kind fails on types containing
lvalues (resolution strips rvalues for `SameType` only, lines 1581-1587) and
on tuples with variadic elements (the `Conversion` element loop matches a
shuffled variadic source element's slice type against the destination's
variadic base type, lines 1220-1237).  `clean` carves out the fragment on
which the monotonicity holds. -/

mutual
/-- No lvalue types and no variadic tuple elements anywhere. -/
def Ty.clean : Ty → Bool
  | .builtin _ => true
  | .moduleTy _ => true
  | .nominal _ => true
  | .cls _ _ => true
  | .tuple elts => cleanElts elts
  | .fn i r _ _ => i.clean && r.clean
  | .metaTy i => i.clean
  | .arr b => b.clean
  | .lval _ _ _ => false
  | .proto _ => true
  | .protoComp _ => true
  | .bound _ a => a.clean

def cleanElts : List TupleElt → Bool
  | [] => true
  | e :: r => TupleElt.clean e && cleanElts r

def TupleElt.clean : TupleElt → Bool
  | .mk _ t v _ => !v && t.clean
end

theorem Ty.clean_rvalue {t : Ty} (h : t.clean = true) : t.rvalue = t := by
  cases t <;> simp_all [Ty.clean, Ty.rvalue]

theorem cleanElts_get? {es : List TupleElt} (h : cleanElts es = true)
    {k : Nat} {e : TupleElt} (hk : es.get? k = some e) :
    e.vararg = false ∧ e.ty.clean = true := by
  induction es generalizing k with
  | nil => simp at hk
  | cons a r ih =>
    simp only [cleanElts, Bool.and_eq_true] at h
    cases k with
    | zero =>
      simp only [List.get?] at hk
      cases hk
      obtain ⟨ha, _⟩ := h
      cases e with
      | mk n t v i => simpa [TupleElt.clean, TupleElt.vararg, TupleElt.ty] using ha
    | succ k2 =>
      exact ih h.2 hk

/-! ### Loop lemmas for the tuple matchers -/

theorem matchTupleEltsStruct_sameType_facts (rec : MatchFn)
    (full1 : List TupleElt) :
    ∀ l1 l2, matchTupleEltsStruct rec full1 .sameType l1 l2 ≠ .error →
    ∀ k e1 e2, l1.get? k = some e1 → l2.get? k = some e2 →
      e1.name = e2.name ∧ e1.vararg = e2.vararg ∧
        rec e1.ty e2.ty .sameType ≠ .error := by
  intro l1
  induction l1 with
  | nil => intro l2 _ k e1 e2 h1; simp at h1
  | cons a r1 ih =>
    intro l2 hres k e1 e2 h1 h2
    cases l2 with
    | nil => simp at h2
    | cons b r2 =>
      by_cases hn : a.name = b.name
      · by_cases hv : a.vararg = b.vararg
        · simp only [matchTupleEltsStruct, hn, if_pos rfl, ite_self] at hres
          rw [if_neg (by simp), if_neg (by simp [hv])] at hres
          revert hres
          cases hrec : rec a.ty b.ty .sameType with
          | error => intro hres; simp at hres
          | solved =>
            intro hres
            cases k with
            | zero =>
              simp only [List.get?] at h1 h2
              cases h1; cases h2
              exact ⟨hn, hv, by simp [hrec]⟩
            | succ k2 => exact ih r2 hres k2 e1 e2 h1 h2
          | unsolved =>
            intro hres
            cases k with
            | zero =>
              simp only [List.get?] at h1 h2
              cases h1; cases h2
              exact ⟨hn, hv, by simp [hrec]⟩
            | succ k2 => exact ih r2 hres k2 e1 e2 h1 h2
        · exfalso
          apply hres
          simp only [matchTupleEltsStruct, hn, if_pos rfl]
          rw [if_neg (by simp), if_pos (by simp [hv])]
      · exfalso
        apply hres
        simp [matchTupleEltsStruct, hn]

theorem matchTupleEltsStruct_solved (rec : MatchFn) (full1 : List TupleElt)
    (kind : TypeMatchKind) :
    ∀ l1 l2, (∀ k e1 e2, l1.get? k = some e1 → l2.get? k = some e2 →
      e1.name = e2.name ∧ e1.vararg = e2.vararg ∧
        rec e1.ty e2.ty kind ≠ .error) →
    matchTupleEltsStruct rec full1 kind l1 l2 = .solved := by
  intro l1
  induction l1 with
  | nil => intro l2 _; cases l2 <;> simp [matchTupleEltsStruct]
  | cons a r1 ih =>
    intro l2 hfacts
    cases l2 with
    | nil => simp [matchTupleEltsStruct]
    | cons b r2 =>
      obtain ⟨hn, hv, hrec⟩ :=
        hfacts 0 a b (by simp [List.get?]) (by simp [List.get?])
      have htail := ih r2 (fun k e1 e2 hh1 hh2 =>
        hfacts (k + 1) e1 e2 (by simpa using hh1) (by simpa using hh2))
      simp only [matchTupleEltsStruct, hn, if_pos rfl, ite_self]
      rw [if_neg (by simp), if_neg (by simp [hv])]
      cases hr : rec a.ty b.ty kind with
      | error => exact absurd hr hrec
      | solved => simpa using htail
      | unsolved => simpa using htail

theorem matchShuffledElts_solved (rec : MatchFn) (es1 : List TupleElt) :
    ∀ ss des, (∀ k s e2, ss.get? k = some s → des.get? k = some e2 →
        s ≠ defaultInitMark → s ≠ variadicMark →
        ∃ e1, es1.get? s.toNat = some e1 ∧
          rec e1.ty e2.ty .conversion ≠ .error) →
    matchShuffledElts rec es1 ss des = .solved := by
  intro ss
  induction ss with
  | nil => intro des _; simp [matchShuffledElts]
  | cons s ss2 ih =>
    intro des hfacts
    cases des with
    | nil => simp [matchShuffledElts]
    | cons e2 r2 =>
      have htail := ih r2 (fun k s2 e hh1 hh2 =>
        hfacts (k + 1) s2 e (by simpa using hh1) (by simpa using hh2))
      by_cases hmark : s = defaultInitMark ∨ s = variadicMark
      · simp only [matchShuffledElts, if_pos hmark]
        exact htail
      · obtain ⟨e1, he1, hrec⟩ :=
          hfacts 0 s e2 (by simp [List.get?]) (by simp [List.get?])
            (fun h => hmark (Or.inl h)) (fun h => hmark (Or.inr h))
        simp only [matchShuffledElts, if_neg hmark, he1]
        cases hr : rec e1.ty e2.ty .conversion with
        | error => exact absurd hr hrec
        | solved => exact htail
        | unsolved => exact htail

/-! ### The identity shuffle

On tuples of equal length with pointwise-equal element names and no
variadic elements, `computeTupleShuffle` claims every destination position
from the same source position: named positions during named matching,
unnamed positions in order during resolution. -/

/-- Whether the element at position `j` carries a name. -/
def namedAt (es : List TupleElt) (j : Nat) : Bool :=
  match es[j]? with
  | some e => e.hasName
  | none => false

/-- Sources map during the named-matching phase: positions below `i` are
claimed when named. -/
def aSources (es2 : List TupleElt) (i : Nat) : List Int :=
  (List.range es2.length).map
    (fun j => if j < i ∧ namedAt es2 j = true then (j : Int) else unassigned)

/-- Consumed mask during the named-matching phase. -/
def aConsumed (es2 : List TupleElt) (i : Nat) : List Bool :=
  (List.range es2.length).map (fun j => decide (j < i) && namedAt es2 j)

/-- Sources map during the resolution phase: positions below `i` are all
claimed, later ones when named. -/
def bSources (es2 : List TupleElt) (i : Nat) : List Int :=
  (List.range es2.length).map
    (fun j => if j < i ∨ namedAt es2 j = true then (j : Int) else unassigned)

/-- Consumed mask during the resolution phase. -/
def bConsumed (es2 : List TupleElt) (i : Nat) : List Bool :=
  (List.range es2.length).map (fun j => decide (j < i) || namedAt es2 j)

theorem mapRange_getElem {α : Type} (n : Nat) (f : Nat → α) (j : Nat) :
    ((List.range n).map f)[j]? = if j < n then some (f j) else none := by
  by_cases h : j < n
  · rw [List.getElem?_map, List.getElem?_range h]; simp [h]
  · rw [List.getElem?_map,
      List.getElem?_eq_none (by simpa using Nat.le_of_not_lt h)]
    simp [h]

theorem mapRange_length {α : Type} (n : Nat) (f : Nat → α) :
    ((List.range n).map f).length = n := by
  simp

theorem mapRange_set {α : Type} (n : Nat) (f g : Nat → α) (i : Nat) (x : α)
    (hi : i < n) (hx : g i = x) (hj : ∀ j, j ≠ i → f j = g j) :
    ((List.range n).map f).set i x = (List.range n).map g := by
  apply List.ext_getElem?
  intro j
  by_cases hji : i = j
  · subst hji
    rw [List.getElem?_set_self', mapRange_getElem, mapRange_getElem]
    simp [hi, hx]
  · rw [List.getElem?_set_ne hji, mapRange_getElem, mapRange_getElem]
    by_cases hjn : j < n <;> simp [hjn, hj j (fun h => hji h.symm)]

theorem mapRange_ext {α : Type} (n : Nat) (f g : Nat → α)
    (h : ∀ j, j < n → f j = g j) :
    (List.range n).map f = (List.range n).map g := by
  apply List.ext_getElem?
  intro j
  rw [mapRange_getElem, mapRange_getElem]
  by_cases hj : j < n <;> simp [hj]
  · exact h j hj

theorem mapRange_getD {α : Type} (n : Nat) (f : Nat → α) (j : Nat) (d : α) :
    ((List.range n).map f).getD j d = if j < n then f j else d := by
  rw [List.getD_eq_getElem?_getD, mapRange_getElem]
  by_cases h : j < n <;> simp [h]

/-- Pointwise-equal names transfer `namedAt` across the two tuples. -/
theorem namedAt_congr {es1 es2 : List TupleElt}
    (hname : es1.map TupleElt.name = es2.map TupleElt.name) (j : Nat) :
    namedAt es1 j = namedAt es2 j := by
  have h := congrArg (fun l => l[j]?) hname
  simp only [List.getElem?_map] at h
  unfold namedAt
  cases h1 : es1[j]? with
  | none =>
    cases h2 : es2[j]? with
    | none => rfl
    | some e2 => rw [h1, h2] at h; simp at h
  | some e1 =>
    cases h2 : es2[j]? with
    | none => rw [h1, h2] at h; simp at h
    | some e2 =>
      rw [h1, h2] at h
      simp only [Option.map] at h
      have he : e1.name = e2.name := by simpa using h
      simp [TupleElt.hasName, he]

/-- Pointwise names across the two tuples. -/
theorem name_congr {es1 es2 : List TupleElt}
    (hname : es1.map TupleElt.name = es2.map TupleElt.name) {j : Nat}
    {e1 e2 : TupleElt} (h1 : es1[j]? = some e1) (h2 : es2[j]? = some e2) :
    e1.name = e2.name := by
  have h := congrArg (fun l => l[j]?) hname
  simp only [List.getElem?_map, h1, h2, Option.map] at h
  simpa using h

theorem skipConsumed_of_true {c : List Bool} {i : Nat}
    (h : c.getD i false = true) : skipConsumed c i = skipConsumed c (i + 1) := by
  have hlen : i < c.length := by
    by_contra hge
    rw [List.getD_eq_getElem?_getD,
      List.getElem?_eq_none (Nat.le_of_not_lt hge)] at h
    simp at h
  have hdrop : c.drop i = true :: c.drop (i + 1) := by
    have h1 := List.drop_eq_getElem_cons hlen
    have h3 := List.getElem?_eq_getElem hlen
    rw [List.getD_eq_getElem?_getD, h3] at h
    simp only [Option.getD_some] at h
    rw [h1, h]
  unfold skipConsumed
  rw [hdrop]
  simp [nextAvailFrom]

theorem skipConsumed_of_false {c : List Bool} {i : Nat}
    (h : c.getD i false = false) : skipConsumed c i = i := by
  by_cases hlen : i < c.length
  · have hdrop : c.drop i = false :: c.drop (i + 1) := by
      have h1 := List.drop_eq_getElem_cons hlen
      have h3 := List.getElem?_eq_getElem hlen
      rw [List.getD_eq_getElem?_getD, h3] at h
      simp only [Option.getD_some] at h
      rw [h1, h]
    unfold skipConsumed
    rw [hdrop]
    simp [nextAvailFrom]
  · unfold skipConsumed
    rw [List.drop_eq_nil_of_le (Nat.le_of_not_lt hlen)]
    rfl

theorem aSources_top {es2 : List TupleElt} {i : Nat} (h : es2.length ≤ i) :
    aSources es2 i = aSources es2 es2.length := by
  apply mapRange_ext
  intro j hj
  have h1 : j < i := by omega
  simp [h1, hj]

theorem aConsumed_top {es2 : List TupleElt} {i : Nat} (h : es2.length ≤ i) :
    aConsumed es2 i = aConsumed es2 es2.length := by
  apply mapRange_ext
  intro j hj
  have h1 : j < i := by omega
  simp [h1, hj]

theorem aSources_step_unnamed {es2 : List TupleElt} {i : Nat}
    (h : namedAt es2 i = false) : aSources es2 i = aSources es2 (i + 1) := by
  apply mapRange_ext
  intro j hj
  by_cases hji : j = i
  · subst hji; simp [h]
  · by_cases hlt : j < i
    · have hlt2 : j < i + 1 := by omega
      simp [hlt, hlt2]
    · have hlt2 : ¬j < i + 1 := by omega
      simp [hlt, hlt2]

theorem aConsumed_step_unnamed {es2 : List TupleElt} {i : Nat}
    (h : namedAt es2 i = false) : aConsumed es2 i = aConsumed es2 (i + 1) := by
  apply mapRange_ext
  intro j hj
  by_cases hji : j = i
  · subst hji; simp [h]
  · by_cases hlt : j < i
    · have hlt2 : j < i + 1 := by omega
      simp [hlt, hlt2]
    · have hlt2 : ¬j < i + 1 := by omega
      simp [hlt, hlt2]

theorem aSources_step_named {es2 : List TupleElt} {i : Nat}
    (hi : i < es2.length) (h : namedAt es2 i = true) :
    (aSources es2 i).set i (i : Int) = aSources es2 (i + 1) := by
  apply mapRange_set es2.length _ _ i _ hi
  · simp [h]
  · intro j hji
    by_cases hlt : j < i
    · have hlt2 : j < i + 1 := by omega
      simp [hlt, hlt2]
    · have hlt2 : ¬j < i + 1 := by omega
      simp [hlt, hlt2]

theorem aConsumed_step_named {es2 : List TupleElt} {i : Nat}
    (hi : i < es2.length) (h : namedAt es2 i = true) :
    (aConsumed es2 i).set i true = aConsumed es2 (i + 1) := by
  apply mapRange_set es2.length _ _ i _ hi
  · simp [h]
  · intro j hji
    by_cases hlt : j < i
    · have hlt2 : j < i + 1 := by omega
      simp [hlt, hlt2]
    · have hlt2 : ¬j < i + 1 := by omega
      simp [hlt, hlt2]

theorem findGo_first (es1 : List TupleElt) (consumed : List Bool) (nm : String)
    (target : Nat) (et : TupleElt) (hT : es1[target]? = some et)
    (hTn : et.name = some nm) (hTc : consumed.getD target false = false) :
    ∀ l j, l = es1.drop j → j ≤ target →
      (∀ j2 e2, j ≤ j2 → j2 < target → es1[j2]? = some e2 →
        ¬(e2.name = some nm ∧ consumed.getD j2 false = false)) →
      findUnconsumedNamed.go consumed nm l j = some target := by
  intro l
  induction l with
  | nil =>
    intro j hdrop hle _
    exfalso
    have hlen : es1.length ≤ j := by
      have h := congrArg List.length hdrop
      simp at h
      omega
    have hnone : es1[target]? = none := List.getElem?_eq_none (by omega)
    rw [hT] at hnone
    simp at hnone
  | cons e r ih =>
    intro j hdrop hle hskip
    have hj : es1[j]? = some e := by
      have h := congrArg (fun l2 => l2[0]?) hdrop
      simp only [List.getElem?_drop] at h
      simpa using h.symm
    have hr : r = es1.drop (j + 1) := by
      have h := congrArg List.tail hdrop
      simpa [List.tail_drop] using h
    by_cases hjt : j = target
    · subst hjt
      rw [hj] at hT
      have he : e = et := by simpa using hT
      subst he
      have hTc2 : consumed[j]?.getD false = false := by
        rw [← List.getD_eq_getElem?_getD]; exact hTc
      simp [findUnconsumedNamed.go, hTn, hTc2]
    · have hlt : j < target := by omega
      have hcond := hskip j e (Nat.le_refl j) hlt hj
      have : ¬(e.name = some nm ∧ consumed.getD j false = false) := hcond
      simp only [findUnconsumedNamed.go]
      by_cases hn : e.name = some nm
      · have hcons : consumed.getD j false = true := by
          by_contra hc
          exact this ⟨hn, by simpa using hc⟩
        have hcons2 : consumed[j]?.getD false = true := by
          rw [← List.getD_eq_getElem?_getD]; exact hcons
        rw [if_neg (by simp [hn, hcons2])]
        exact ih (j + 1) hr (by omega)
          (fun j2 e2 h1 h2 h3 => hskip j2 e2 (by omega) h2 h3)
      · rw [if_neg (by simp [hn])]
        exact ih (j + 1) hr (by omega)
          (fun j2 e2 h1 h2 h3 => hskip j2 e2 (by omega) h2 h3)

theorem matchNamed_go_id (es1 es2 : List TupleElt)
    (hname : es1.map TupleElt.name = es2.map TupleElt.name) :
    ∀ des i, des = es2.drop i →
      matchNamedElements.go es1 des i (aSources es2 i) (aConsumed es2 i) =
        (aSources es2 es2.length, aConsumed es2 es2.length) := by
  have hlen : es1.length = es2.length := by
    have h := congrArg List.length hname
    simpa using h
  intro des
  induction des with
  | nil =>
    intro i hdrop
    have hge : es2.length ≤ i := by
      have h := congrArg List.length hdrop
      simp at h
      omega
    simp only [matchNamedElements.go]
    rw [aSources_top hge, aConsumed_top hge]
  | cons e r ih =>
    intro i hdrop
    have hi : es2[i]? = some e := by
      have h := congrArg (fun l2 => l2[0]?) hdrop
      simp only [List.getElem?_drop] at h
      simpa using h.symm
    have hr : r = es2.drop (i + 1) := by
      have h := congrArg List.tail hdrop
      simpa [List.tail_drop] using h
    have hiLt : i < es2.length := by
      by_contra hge
      rw [List.getElem?_eq_none (Nat.le_of_not_lt hge)] at hi
      simp at hi
    simp only [matchNamedElements.go]
    cases hen : e.name with
    | none =>
      have hnamed : namedAt es2 i = false := by
        unfold namedAt
        rw [hi]
        simp [TupleElt.hasName, hen]
      rw [aSources_step_unnamed hnamed, aConsumed_step_unnamed hnamed]
      exact ih (i + 1) hr
    | some nm =>
      have hnamed : namedAt es2 i = true := by
        unfold namedAt
        rw [hi]
        simp [TupleElt.hasName, hen]
      obtain ⟨e1, he1⟩ : ∃ e1, es1[i]? = some e1 := by
        have h1 : i < es1.length := by omega
        exact ⟨es1[i], List.getElem?_eq_getElem h1⟩
      have he1n : e1.name = some nm := by
        rw [name_congr hname he1 hi, hen]
      have hfind : findUnconsumedNamed es1 (aConsumed es2 i) nm = some i := by
        unfold findUnconsumedNamed
        apply findGo_first es1 (aConsumed es2 i) nm i e1 he1 he1n
        · rw [aConsumed]
          rw [mapRange_getD]
          simp [hiLt]
        · simp
        · omega
        · intro j2 e2 _ hj2 hje2
          intro hcontra
          obtain ⟨hn2, hc2⟩ := hcontra
          have hnamed2 : namedAt es1 j2 = true := by
            unfold namedAt
            rw [hje2]
            simp [TupleElt.hasName, hn2]
          rw [aConsumed, mapRange_getD] at hc2
          have hj2n : j2 < es2.length := by omega
          rw [namedAt_congr hname j2] at hnamed2
          simp [hj2n, hj2, hnamed2] at hc2
      simp only [hfind]
      rw [aSources_step_named hiLt hnamed, aConsumed_step_named hiLt hnamed]
      exact ih (i + 1) hr

theorem matchNamedElements_id (es1 es2 : List TupleElt)
    (hname : es1.map TupleElt.name = es2.map TupleElt.name) :
    matchNamedElements es1 es2 =
      (aSources es2 es2.length, aConsumed es2 es2.length) := by
  have hlen : es1.length = es2.length := by
    have h := congrArg List.length hname
    simpa using h
  unfold matchNamedElements
  have h0s : List.replicate es2.length unassigned = aSources es2 0 := by
    apply List.ext_getElem?
    intro j
    rw [aSources, mapRange_getElem, List.getElem?_replicate]
    by_cases hj : j < es2.length <;> simp [hj]
  have h0c : List.replicate es1.length false = aConsumed es2 0 := by
    apply List.ext_getElem?
    intro j
    rw [aConsumed, mapRange_getElem, List.getElem?_replicate]
    rw [hlen]
    by_cases hj : j < es2.length <;> simp [hj]
  rw [h0s, h0c]
  exact matchNamed_go_id es1 es2 hname es2 0 (by simp)

theorem aSources_eq_bSources0 (es2 : List TupleElt) :
    aSources es2 es2.length = bSources es2 0 := by
  apply mapRange_ext
  intro j hj
  simp [hj]

theorem aConsumed_eq_bConsumed0 (es2 : List TupleElt) :
    aConsumed es2 es2.length = bConsumed es2 0 := by
  apply mapRange_ext
  intro j hj
  simp [hj]

theorem bSources_step_named {es2 : List TupleElt} {i : Nat}
    (h : namedAt es2 i = true) : bSources es2 i = bSources es2 (i + 1) := by
  apply mapRange_ext
  intro j hj
  by_cases hji : j = i
  · subst hji; simp [h]
  · by_cases hlt : j < i
    · have hlt2 : j < i + 1 := by omega
      simp [hlt, hlt2]
    · have hlt2 : ¬j < i + 1 := by omega
      simp [hlt, hlt2]

theorem bConsumed_step_named {es2 : List TupleElt} {i : Nat}
    (h : namedAt es2 i = true) : bConsumed es2 i = bConsumed es2 (i + 1) := by
  apply mapRange_ext
  intro j hj
  by_cases hji : j = i
  · subst hji; simp [h]
  · by_cases hlt : j < i
    · have hlt2 : j < i + 1 := by omega
      simp [hlt, hlt2]
    · have hlt2 : ¬j < i + 1 := by omega
      simp [hlt, hlt2]

theorem bSources_step_set {es2 : List TupleElt} {i : Nat}
    (hi : i < es2.length) :
    (bSources es2 i).set i (i : Int) = bSources es2 (i + 1) := by
  apply mapRange_set es2.length _ _ i _ hi
  · simp
  · intro j hji
    by_cases hlt : j < i
    · have hlt2 : j < i + 1 := by omega
      simp [hlt, hlt2]
    · have hlt2 : ¬j < i + 1 := by omega
      simp [hlt, hlt2]

theorem bConsumed_step_set {es2 : List TupleElt} {i : Nat}
    (hi : i < es2.length) :
    (bConsumed es2 i).set i true = bConsumed es2 (i + 1) := by
  apply mapRange_set es2.length _ _ i _ hi
  · simp
  · intro j hji
    by_cases hlt : j < i
    · have hlt2 : j < i + 1 := by omega
      simp [hlt, hlt2]
    · have hlt2 : ¬j < i + 1 := by omega
      simp [hlt, hlt2]

theorem bConsumed_getD (es2 : List TupleElt) (i j : Nat) :
    (bConsumed es2 i).getD j false =
      if j < es2.length then (decide (j < i) || namedAt es2 j) else false := by
  rw [bConsumed, mapRange_getD]

theorem resolveUnmatched_id (es1 es2 : List TupleElt) (mandatory : Bool)
    (hname : es1.map TupleElt.name = es2.map TupleElt.name)
    (hclean : cleanElts es2 = true) :
    ∀ des i, des = es2.drop i → i ≤ es2.length →
      resolveUnmatched es1 mandatory des i (bSources es2 i) (bConsumed es2 i)
        (skipConsumed (bConsumed es2 i) i) [] =
      some (bSources es2 es2.length, []) := by
  have hlen : es1.length = es2.length := by
    have h := congrArg List.length hname
    simpa using h
  intro des
  induction des with
  | nil =>
    intro i hdrop hile
    have hge : es2.length ≤ i := by
      have h := congrArg List.length hdrop
      simp at h
      omega
    have hieq : i = es2.length := by omega
    subst hieq
    have hskip : skipConsumed (bConsumed es2 es2.length) es2.length
        = es2.length := by
      apply skipConsumed_of_false
      rw [bConsumed_getD]
      simp
    rw [hskip]
    simp [resolveUnmatched, hlen]
  | cons e r ih =>
    intro i hdrop hile
    have hi : es2[i]? = some e := by
      have h := congrArg (fun l2 => l2[0]?) hdrop
      simp only [List.getElem?_drop] at h
      simpa using h.symm
    have hr : r = es2.drop (i + 1) := by
      have h := congrArg List.tail hdrop
      simpa [List.tail_drop] using h
    have hiLt : i < es2.length := by
      by_contra hge
      rw [List.getElem?_eq_none (Nat.le_of_not_lt hge)] at hi
      simp at hi
    have hgetDsrc : (bSources es2 i).getD i unassigned =
        if namedAt es2 i = true then (i : Int) else unassigned := by
      rw [bSources, mapRange_getD]
      simp [hiLt]
    cases hnm : namedAt es2 i with
    | true =>
      have hne : (bSources es2 i).getD i unassigned ≠ unassigned := by
        rw [hgetDsrc, if_pos hnm]
        unfold unassigned
        omega
      have hskipT : skipConsumed (bConsumed es2 i) i
          = skipConsumed (bConsumed es2 i) (i + 1) := by
        apply skipConsumed_of_true
        rw [bConsumed_getD]
        simp [hiLt, hnm]
      simp only [resolveUnmatched, if_pos hne]
      rw [hskipT, bSources_step_named hnm, bConsumed_step_named hnm]
      exact ih (i + 1) hr (by omega)
    | false =>
      have heq : (bSources es2 i).getD i unassigned = unassigned := by
        rw [hgetDsrc, if_neg (by simp [hnm])]
      have hva : e.vararg = false := by
        have h := @cleanElts_get? es2 hclean i e
          (by rw [List.get?_eq_getElem?]; exact hi)
        exact h.1
      have hskipF : skipConsumed (bConsumed es2 i) i = i := by
        apply skipConsumed_of_false
        rw [bConsumed_getD]
        simp [hiLt, hnm]
      have hiNe : i ≠ es1.length := by omega
      obtain ⟨e1, he1⟩ : ∃ e1, es1[i]? = some e1 := by
        have h1 : i < es1.length := by omega
        exact ⟨es1[i], List.getElem?_eq_getElem h1⟩
      have hename : e.name = none := by
        unfold namedAt at hnm
        rw [hi] at hnm
        simpa [TupleElt.hasName] using hnm
      have he1name : e1.name = none := by
        rw [name_congr hname he1 hi]
        exact hename
      have he1get : es1.get? i = some e1 := by
        rw [List.get?_eq_getElem?]
        exact he1
      have hHasName : e1.hasName = false := by
        simp [TupleElt.hasName, he1name]
      simp only [resolveUnmatched, heq]
      rw [if_neg (by simp), if_neg (by simp [hva]), hskipF,
        if_neg (by simpa using hiNe), he1get]
      simp only [hHasName, Bool.false_and, Bool.false_eq_true, if_false]
      have hset1 := @bSources_step_set es2 i hiLt
      have hset2 := @bConsumed_step_set es2 i hiLt
      rw [hset1, hset2]
      have hskipT2 : skipConsumed (bConsumed es2 (i + 1)) i
          = skipConsumed (bConsumed es2 (i + 1)) (i + 1) := by
        apply skipConsumed_of_true
        rw [bConsumed_getD]
        simp [hiLt]
      rw [hskipT2]
      exact ih (i + 1) hr (by omega)

/-- The identity shuffle: tuples with pointwise-equal element names (hence
equal arities) and no variadic destination elements shuffle by the identity
mapping, with no variadic arguments collected. -/
theorem computeTupleShuffle_id (es1 es2 : List TupleElt) (mandatory : Bool)
    (hname : es1.map TupleElt.name = es2.map TupleElt.name)
    (hclean : cleanElts es2 = true) :
    computeTupleShuffle es1 es2 mandatory =
      some ((List.range es2.length).map Int.ofNat, []) := by
  have hnamedEq := matchNamedElements_id es1 es2 hname
  rw [aSources_eq_bSources0, aConsumed_eq_bConsumed0] at hnamedEq
  have hres := resolveUnmatched_id es1 es2 mandatory hname hclean es2 0
    (by simp) (by omega)
  have hfinal : bSources es2 es2.length =
      (List.range es2.length).map Int.ofNat := by
    apply mapRange_ext
    intro j hj
    simp [hj]
  unfold computeTupleShuffle
  rw [hnamedEq]
  simp only []
  rw [hres, hfinal]

/-! ### Monotonicity of `matchTypes` in the match kind, on `clean` types -/

/-- Relation between the `SameType` outcome and the outcome at a more
permissive kind: an error may become anything, a success stays a success,
a deferral does not become an error. -/
def MonoRes : SolutionKind → SolutionKind → Prop
  | .error, _ => True
  | .solved, r => r = .solved
  | .unsolved, r => r ≠ .error

theorem MonoRes.of_error {r1 r2 : SolutionKind} (h : r1 = .error) :
    MonoRes r1 r2 := by
  subst h; trivial

theorem MonoRes.refl {r : SolutionKind} : MonoRes r r := by
  cases r <;> simp [MonoRes]

theorem MonoRes.any_solved {r : SolutionKind} : MonoRes r .solved := by
  cases r <;> simp [MonoRes]

theorem MonoRes.ne_error {r1 r2 : SolutionKind} (h : MonoRes r1 r2)
    (h1 : r1 ≠ .error) : r2 ≠ .error := by
  cases r1 with
  | error => exact (h1 (Eq.refl _)).elim
  | solved => rw [h]; simp
  | unsolved => exact h

theorem MonoRes.solved {r1 r2 : SolutionKind} (h : MonoRes r1 r2)
    (h1 : r1 = .solved) : r2 = .solved := by
  subst h1; exact h

set_option maxHeartbeats 1000000 in
/-- Below `Conversion` the candidate collection produces exactly the
structural candidates. -/
theorem collectRestrictions_sameType (env : Env) (t1 t2 : Ty) :
    collectRestrictions env t1 t2 .sameType =
      (match t1, t2 with
       | .tuple _, .tuple _ => [ConversionRestrictionKind.tupleToTuple]
       | .nominal d1, .nominal d2 =>
         if d1 = d2 then [ConversionRestrictionKind.deepEquality] else []
       | .cls d1 _, .cls d2 _ =>
         if d1 = d2 then [ConversionRestrictionKind.deepEquality] else []
       | .bound d1 _, .bound d2 _ =>
         if d1 = d2 then [ConversionRestrictionKind.deepEquality] else []
       | _, _ => []) := by
  unfold collectRestrictions
  simp [TypeMatchKind.atLeast, TypeMatchKind.rank]

set_option maxHeartbeats 2000000 in
/-- The collection always starts with the structural candidate when there
is one. -/
theorem collectRestrictions_cons (env : Env) (t1 t2 : Ty)
    (kind : TypeMatchKind) (x : ConversionRestrictionKind)
    (hstruct : (match t1, t2 with
       | .tuple _, .tuple _ => [ConversionRestrictionKind.tupleToTuple]
       | .nominal d1, .nominal d2 =>
         if d1 = d2 then [ConversionRestrictionKind.deepEquality] else []
       | .cls d1 _, .cls d2 _ =>
         if d1 = d2 then [ConversionRestrictionKind.deepEquality] else []
       | .bound d1 _, .bound d2 _ =>
         if d1 = d2 then [ConversionRestrictionKind.deepEquality] else []
       | _, _ => []) = [x]) :
    ∃ rest, collectRestrictions env t1 t2 kind = x :: rest := by
  simp only [collectRestrictions]
  rw [hstruct]
  split
  · exact ⟨_, rfl⟩
  · exact ⟨_, rfl⟩

theorem matchTupleEltsStruct_not_unsolved (rec : MatchFn)
    (full1 : List TupleElt) (kind : TypeMatchKind) :
    ∀ l1 l2, matchTupleEltsStruct rec full1 kind l1 l2 ≠ .unsolved := by
  intro l1
  induction l1 with
  | nil => intro l2; cases l2 <;> simp [matchTupleEltsStruct]
  | cons a r1 ih =>
    intro l2
    cases l2 with
    | nil => simp [matchTupleEltsStruct]
    | cons b r2 =>
      simp only [matchTupleEltsStruct]
      repeat' split
      all_goals simp_all [ih r2]

theorem idSources_no_variadic (n : Nat) :
    ((List.range n).map Int.ofNat).contains variadicMark = false := by
  rw [Bool.eq_false_iff]
  intro h
  have hmem : variadicMark ∈ (List.range n).map Int.ofNat := by
    simpa using h
  obtain ⟨j, _, hj⟩ := List.mem_map.mp hmem
  rw [Int.ofNat_eq_natCast] at hj
  unfold variadicMark at hj
  omega

/-- The recursive hypothesis carried through the monotonicity induction. -/
def MonoIH (rec : MatchFn) : Prop :=
  ∀ a b k2, a.clean = true → b.clean = true → 1 ≤ k2.rank →
    MonoRes (rec a b .sameType) (rec a b k2)

theorem fnCore_mono (rec : MatchFn) (ih : MonoIH rec) (i1 r1 i2 r2 : Ty)
    (h1i : i1.clean = true) (h1r : r1.clean = true)
    (h2i : i2.clean = true) (h2r : r2.clean = true)
    (subK : TypeMatchKind) (hsub : 1 ≤ subK.rank) :
    MonoRes
      (match rec i2 i1 .sameType with
       | .error => .error
       | _ =>
         match rec r1 r2 .sameType with
         | .error => SolutionKind.error
         | .solved => .solved
         | .unsolved => .unsolved)
      (match rec i2 i1 subK with
       | .error => .error
       | _ =>
         match rec r1 r2 subK with
         | .error => SolutionKind.error
         | .solved => .solved
         | .unsolved => .unsolved) := by
  have hin := ih i2 i1 subK h2i h1i hsub
  have hout := ih r1 r2 subK h1r h2r hsub
  cases hI : rec i2 i1 .sameType with
  | error => exact MonoRes.of_error rfl
  | solved | unsolved =>
    rw [hI] at hin
    have hIk : rec i2 i1 subK ≠ .error := by
      first
        | exact fun hx => by rw [hin] at hx; cases hx
        | exact hin
    cases hIk2 : rec i2 i1 subK with
    | error => exact absurd hIk2 hIk
    | solved | unsolved =>
      cases hR : rec r1 r2 .sameType with
      | error => exact MonoRes.of_error rfl
      | solved =>
        rw [hR] at hout
        rw [hout]
        exact MonoRes.any_solved
      | unsolved =>
        rw [hR] at hout
        cases hRk : rec r1 r2 subK with
        | error => exact absurd hRk hout
        | solved => simp [MonoRes]
        | unsolved => simp [MonoRes]

theorem matchFunctionTypes_mono (rec : MatchFn) (ih : MonoIH rec)
    (i1 r1 : Ty) (a1 n1 : Bool) (i2 r2 : Ty) (a2 n2 : Bool)
    (kind : TypeMatchKind)
    (h1i : i1.clean = true) (h1r : r1.clean = true)
    (h2i : i2.clean = true) (h2r : r2.clean = true)
    (hk : 2 ≤ kind.rank) :
    MonoRes (matchFunctionTypes rec i1 r1 a1 n1 i2 r2 a2 n2 .sameType)
      (matchFunctionTypes rec i1 r1 a1 n1 i2 r2 a2 n2 kind) := by
  by_cases ha : a1 = a2
  · subst ha
    by_cases hn : n1 ≠ n2 ∧ n2 = true
    · apply MonoRes.of_error
      simp only [matchFunctionTypes]
      rw [if_neg (by simp), if_pos (by
        simpa [TypeMatchKind.atLeast, TypeMatchKind.rank] using hn)]
    · have hL : matchFunctionTypes rec i1 r1 a1 n1 i2 r2 a1 n2 .sameType =
          (match rec i2 i1 .sameType with
           | .error => .error
           | _ =>
             match rec r1 r2 .sameType with
             | .error => SolutionKind.error
             | .solved => .solved
             | .unsolved => .unsolved) := by
        simp only [matchFunctionTypes]
        rw [if_neg (by simp),
          if_neg (by simpa [TypeMatchKind.atLeast, TypeMatchKind.rank] using hn)]
      cases kind with
      | bindType => exact absurd hk (by simp [TypeMatchKind.rank])
      | sameType => rw [hL]; exact MonoRes.refl
      | trivialSubtype =>
        have hR : matchFunctionTypes rec i1 r1 a1 n1 i2 r2 a1 n2
            .trivialSubtype =
            (match rec i2 i1 .trivialSubtype with
             | .error => .error
             | _ =>
               match rec r1 r2 .trivialSubtype with
               | .error => SolutionKind.error
               | .solved => .solved
               | .unsolved => .unsolved) := by
          simp only [matchFunctionTypes]
          rw [if_neg (by simp),
            if_neg (by simpa [TypeMatchKind.atLeast, TypeMatchKind.rank] using hn)]
        rw [hL, hR]
        exact fnCore_mono rec ih i1 r1 i2 r2 h1i h1r h2i h2r .trivialSubtype
          (by simp [TypeMatchKind.rank])
      | subtype =>
        have hR : matchFunctionTypes rec i1 r1 a1 n1 i2 r2 a1 n2 .subtype =
            (match rec i2 i1 .trivialSubtype with
             | .error => .error
             | _ =>
               match rec r1 r2 .trivialSubtype with
               | .error => SolutionKind.error
               | .solved => .solved
               | .unsolved => .unsolved) := by
          simp only [matchFunctionTypes]
          rw [if_neg (by simp),
            if_neg (by simpa [TypeMatchKind.atLeast, TypeMatchKind.rank] using hn)]
        rw [hL, hR]
        exact fnCore_mono rec ih i1 r1 i2 r2 h1i h1r h2i h2r .trivialSubtype
          (by simp [TypeMatchKind.rank])
      | conversion =>
        have hR : matchFunctionTypes rec i1 r1 a1 n1 i2 r2 a1 n2 .conversion =
            (match rec i2 i1 .subtype with
             | .error => .error
             | _ =>
               match rec r1 r2 .subtype with
               | .error => SolutionKind.error
               | .solved => .solved
               | .unsolved => .unsolved) := by
          simp only [matchFunctionTypes]
          rw [if_neg (by simp),
            if_neg (by simpa [TypeMatchKind.atLeast, TypeMatchKind.rank] using hn)]
        rw [hL, hR]
        exact fnCore_mono rec ih i1 r1 i2 r2 h1i h1r h2i h2r .subtype
          (by simp [TypeMatchKind.rank])
  · apply MonoRes.of_error
    simp only [matchFunctionTypes]
    rw [if_pos (by simp [ha, TypeMatchKind.atLeast, TypeMatchKind.rank])]

theorem matchTupleTypes_mono (rec : MatchFn) (ih : MonoIH rec) (m : Bool)
    (es1 es2 : List TupleElt) (kind : TypeMatchKind)
    (h1 : cleanElts es1 = true) (h2 : cleanElts es2 = true)
    (hk : 2 ≤ kind.rank) :
    MonoRes (matchTupleTypes rec m es1 es2 .sameType)
      (matchTupleTypes rec m es1 es2 kind) := by
  have hLs : matchTupleTypes rec m es1 es2 .sameType =
      (if es1.length ≠ es2.length then .error
       else matchTupleEltsStruct rec es1 .sameType es1 es2) := by
    simp only [matchTupleTypes]
    rw [if_pos (by simp [TypeMatchKind.atLeast, TypeMatchKind.rank])]
  rw [hLs]
  by_cases hlen : es1.length = es2.length
  · rw [if_neg (by omega)]
    cases hloop : matchTupleEltsStruct rec es1 .sameType es1 es2 with
    | error => exact MonoRes.of_error rfl
    | unsolved =>
      exact absurd hloop (matchTupleEltsStruct_not_unsolved rec es1 .sameType es1 es2)
    | solved =>
      have hfacts := matchTupleEltsStruct_sameType_facts rec es1 es1 es2
        (by rw [hloop]; simp)
      have hnames : es1.map TupleElt.name = es2.map TupleElt.name := by
        apply List.ext_getElem?
        intro j
        rw [List.getElem?_map, List.getElem?_map]
        by_cases hj : j < es2.length
        · have hj1 : j < es1.length := by omega
          have he1 : es1[j]? = some es1[j] := List.getElem?_eq_getElem hj1
          have he2 : es2[j]? = some es2[j] := List.getElem?_eq_getElem hj
          obtain ⟨hn, _, _⟩ := hfacts j es1[j] es2[j]
            (by rw [List.get?_eq_getElem?]; exact he1)
            (by rw [List.get?_eq_getElem?]; exact he2)
          rw [he1, he2]
          simpa using hn
        · have e1n : es1[j]? = none := List.getElem?_eq_none (by omega)
          have e2n : es2[j]? = none := List.getElem?_eq_none (by omega)
          rw [e1n, e2n]
      by_cases hconv : kind = .conversion
      · subst hconv
        have hsh := computeTupleShuffle_id es1 es2 m hnames h2
        have hloopc : matchShuffledElts rec es1
            ((List.range es2.length).map Int.ofNat) es2 = .solved := by
          apply matchShuffledElts_solved
          intro k s e2 hks hke2 hsd hsv
          rw [List.get?_eq_getElem?] at hks hke2
          rw [mapRange_getElem] at hks
          by_cases hkn : k < es2.length
          · rw [if_pos hkn] at hks
            have hs : Int.ofNat k = s := Option.some.inj hks
            subst hs
            have hk1 : k < es1.length := by omega
            have he1 : es1[k]? = some es1[k] := List.getElem?_eq_getElem hk1
            obtain ⟨_, _, hne⟩ := hfacts k es1[k] e2
              (by rw [List.get?_eq_getElem?]; exact he1)
              (by rw [List.get?_eq_getElem?]; exact hke2)
            have hcl1 := cleanElts_get? h1 (by rw [List.get?_eq_getElem?]; exact he1)
            have hcl2 := cleanElts_get? h2 (by rw [List.get?_eq_getElem?]; exact hke2)
            refine ⟨es1[k], ?_, ?_⟩
            · rw [List.get?_eq_getElem?]
              exact he1
            · exact (ih es1[k].ty e2.ty .conversion hcl1.2 hcl2.2
                (by simp [TypeMatchKind.rank])).ne_error hne
          · rw [if_neg hkn] at hks
            cases hks
        show matchTupleTypes rec m es1 es2 .conversion = .solved
        simp only [matchTupleTypes, TypeMatchKind.atLeast, TypeMatchKind.rank,
          hsh, hloopc]
        rw [if_neg (by simp), idSources_no_variadic]
        simp
      · have hkc : kind.atLeast .conversion = false := by
          cases kind <;> simp_all [TypeMatchKind.atLeast, TypeMatchKind.rank]
        show matchTupleTypes rec m es1 es2 kind = .solved
        unfold matchTupleTypes
        rw [if_pos hkc, if_neg (by omega)]
        apply matchTupleEltsStruct_solved
        intro k e1 e2 hk1 hk2
        obtain ⟨hn, hv, hne⟩ := hfacts k e1 e2 hk1 hk2
        have hcl1 := cleanElts_get? h1 hk1
        have hcl2 := cleanElts_get? h2 hk2
        exact ⟨hn, hv, (ih e1.ty e2.ty kind hcl1.2 hcl2.2 (by omega)).ne_error hne⟩
  · rw [if_pos hlen]
    exact MonoRes.of_error rfl

theorem caseFn_mono (env : Env) (m : Bool) (rec : MatchFn) (ih : MonoIH rec)
    (i1 r1 : Ty) (a1 n1 : Bool) (i2 r2 : Ty) (a2 n2 : Bool)
    (kind : TypeMatchKind)
    (h1 : Ty.clean (.fn i1 r1 a1 n1) = true)
    (h2 : Ty.clean (.fn i2 r2 a2 n2) = true)
    (heq : Ty.fn i1 r1 a1 n1 ≠ Ty.fn i2 r2 a2 n2)
    (hkS : kind ≠ .sameType) (hk2 : 2 ≤ kind.rank) :
    MonoRes
      (matchTypesBody env m rec (.fn i1 r1 a1 n1) (.fn i2 r2 a2 n2) .sameType)
      (matchTypesBody env m rec (.fn i1 r1 a1 n1) (.fn i2 r2 a2 n2) kind) := by
  simp only [Ty.clean, Bool.and_eq_true] at h1 h2
  have hL : matchTypesBody env m rec (.fn i1 r1 a1 n1) (.fn i2 r2 a2 n2)
      .sameType = matchFunctionTypes rec i1 r1 a1 n1 i2 r2 a2 n2 .sameType := by
    simp [matchTypesBody, Ty.rvalue, heq]
  have hR : matchTypesBody env m rec (.fn i1 r1 a1 n1) (.fn i2 r2 a2 n2)
      kind = matchFunctionTypes rec i1 r1 a1 n1 i2 r2 a2 n2 kind := by
    simp [matchTypesBody, hkS, heq]
  rw [hL, hR]
  exact matchFunctionTypes_mono rec ih i1 r1 a1 n1 i2 r2 a2 n2 kind
    h1.1 h1.2 h2.1 h2.2 hk2

theorem caseTuple_mono (env : Env) (m : Bool) (rec : MatchFn) (ih : MonoIH rec)
    (es1 es2 : List TupleElt) (kind : TypeMatchKind)
    (h1 : Ty.clean (.tuple es1) = true) (h2 : Ty.clean (.tuple es2) = true)
    (heq : Ty.tuple es1 ≠ Ty.tuple es2)
    (hkS : kind ≠ .sameType) (hk2 : 2 ≤ kind.rank) :
    MonoRes (matchTypesBody env m rec (.tuple es1) (.tuple es2) .sameType)
      (matchTypesBody env m rec (.tuple es1) (.tuple es2) kind) := by
  simp only [Ty.clean] at h1 h2
  obtain ⟨rest, hcol⟩ := collectRestrictions_cons env (.tuple es1) (.tuple es2)
    kind .tupleToTuple rfl
  have hL : matchTypesBody env m rec (.tuple es1) (.tuple es2) .sameType =
      matchTupleTypes rec m es1 es2 .sameType := by
    simp [matchTypesBody, Ty.rvalue, heq, collectRestrictions_sameType,
      commitToConversions, dispatchRestriction, TypeMatchKind.atLeast,
      TypeMatchKind.rank]
  rw [hL]
  cases rest with
  | cons y ys =>
    have hR : matchTypesBody env m rec (.tuple es1) (.tuple es2) kind =
        .solved := by
      simp [matchTypesBody, hkS, heq, hcol, commitToConversions,
        Ty.autoClosureResult]
    rw [hR]
    exact MonoRes.any_solved
  | nil =>
    have hR : matchTypesBody env m rec (.tuple es1) (.tuple es2) kind =
        matchTupleTypes rec m es1 es2 kind := by
      simp [matchTypesBody, hkS, heq, hcol, commitToConversions,
        dispatchRestriction, Ty.autoClosureResult]
    rw [hR]
    exact matchTupleTypes_mono rec ih m es1 es2 kind h1 h2 hk2

theorem caseMeta_mono (env : Env) (m : Bool) (rec : MatchFn) (ih : MonoIH rec)
    (i1 i2 : Ty) (kind : TypeMatchKind)
    (h1 : Ty.clean (.metaTy i1) = true) (h2 : Ty.clean (.metaTy i2) = true)
    (heq : Ty.metaTy i1 ≠ Ty.metaTy i2)
    (hkS : kind ≠ .sameType) (hk2 : 2 ≤ kind.rank) :
    MonoRes (matchTypesBody env m rec (.metaTy i1) (.metaTy i2) .sameType)
      (matchTypesBody env m rec (.metaTy i1) (.metaTy i2) kind) := by
  simp only [Ty.clean] at h1 h2
  have hL : matchTypesBody env m rec (.metaTy i1) (.metaTy i2) .sameType =
      rec i1 i2 .sameType := by
    simp [matchTypesBody, Ty.rvalue, heq]
  have hR0 : matchTypesBody env m rec (.metaTy i1) (.metaTy i2) kind =
      rec i1 i2
        (if kind ≠ .sameType ∧
            (i1.mayHaveSuperclass = true ∨ i2.classDecl ≠ none)
         then kind.minWith .subtype else .sameType) := by
    simp only [matchTypesBody]
    rw [if_neg hkS, if_neg hkS, if_neg heq]
  rw [hL, hR0]
  by_cases hc : i1.mayHaveSuperclass = true ∨ i2.classDecl ≠ none
  · rw [if_pos ⟨hkS, hc⟩]
    exact ih i1 i2 _ h1 h2
      (by cases kind <;> simp_all [TypeMatchKind.minWith, TypeMatchKind.rank])
  · rw [if_neg (by tauto)]
    exact MonoRes.refl

theorem caseArr_mono (env : Env) (m : Bool) (rec : MatchFn)
    (b1 b2 : Ty) (kind : TypeMatchKind)
    (heq : Ty.arr b1 ≠ Ty.arr b2) (hkS : kind ≠ .sameType) :
    MonoRes (matchTypesBody env m rec (.arr b1) (.arr b2) .sameType)
      (matchTypesBody env m rec (.arr b1) (.arr b2) kind) := by
  have hL : matchTypesBody env m rec (.arr b1) (.arr b2) .sameType =
      rec b1 b2 .sameType := by
    simp [matchTypesBody, Ty.rvalue, heq]
  have hR : matchTypesBody env m rec (.arr b1) (.arr b2) kind =
      rec b1 b2 .sameType := by
    simp [matchTypesBody, hkS, heq]
  rw [hL, hR]
  exact MonoRes.refl

theorem caseCls_mono (env : Env) (m : Bool) (rec : MatchFn)
    (d1 : Nat) (s1 : List Nat) (d2 : Nat) (s2 : List Nat)
    (kind : TypeMatchKind)
    (heq : Ty.cls d1 s1 ≠ Ty.cls d2 s2) (hkS : kind ≠ .sameType) :
    MonoRes (matchTypesBody env m rec (.cls d1 s1) (.cls d2 s2) .sameType)
      (matchTypesBody env m rec (.cls d1 s1) (.cls d2 s2) kind) := by
  by_cases hd : d1 = d2
  · subst hd
    obtain ⟨rest, hcol⟩ := collectRestrictions_cons env (.cls d1 s1)
      (.cls d1 s2) kind .deepEquality (by simp)
    have hR : matchTypesBody env m rec (.cls d1 s1) (.cls d1 s2) kind =
        .solved := by
      cases rest with
      | nil =>
        simp [matchTypesBody, hkS, heq, hcol, commitToConversions,
          dispatchRestriction, matchDeepEqualityTypes, Ty.autoClosureResult]
      | cons y ys =>
        simp [matchTypesBody, hkS, heq, hcol, commitToConversions,
          Ty.autoClosureResult]
    rw [hR]
    exact MonoRes.any_solved
  · apply MonoRes.of_error
    simp [matchTypesBody, Ty.rvalue, heq, hd, collectRestrictions_sameType,
      commitToConversions, TypeMatchKind.atLeast, TypeMatchKind.rank]

theorem caseBound_mono (env : Env) (m : Bool) (rec : MatchFn)
    (d1 : Nat) (a1 : Ty) (d2 : Nat) (a2 : Ty) (kind : TypeMatchKind)
    (heq : Ty.bound d1 a1 ≠ Ty.bound d2 a2) (hkS : kind ≠ .sameType) :
    MonoRes (matchTypesBody env m rec (.bound d1 a1) (.bound d2 a2) .sameType)
      (matchTypesBody env m rec (.bound d1 a1) (.bound d2 a2) kind) := by
  by_cases hd : d1 = d2
  · subst hd
    obtain ⟨rest, hcol⟩ := collectRestrictions_cons env (.bound d1 a1)
      (.bound d1 a2) kind .deepEquality (by simp)
    cases rest with
    | cons y ys =>
      have hR : matchTypesBody env m rec (.bound d1 a1) (.bound d1 a2) kind =
          .solved := by
        simp [matchTypesBody, hkS, heq, hcol, commitToConversions,
          Ty.autoClosureResult]
      rw [hR]
      exact MonoRes.any_solved
    | nil =>
      have hL : matchTypesBody env m rec (.bound d1 a1) (.bound d1 a2)
          .sameType = matchDeepEqualityTypes rec (.bound d1 a1)
            (.bound d1 a2) := by
        simp [matchTypesBody, Ty.rvalue, heq, collectRestrictions_sameType,
          commitToConversions, dispatchRestriction, TypeMatchKind.atLeast,
          TypeMatchKind.rank]
      have hR : matchTypesBody env m rec (.bound d1 a1) (.bound d1 a2) kind =
          matchDeepEqualityTypes rec (.bound d1 a1) (.bound d1 a2) := by
        simp [matchTypesBody, hkS, heq, hcol, commitToConversions,
          dispatchRestriction, Ty.autoClosureResult]
      rw [hL, hR]
      exact MonoRes.refl
  · apply MonoRes.of_error
    simp [matchTypesBody, Ty.rvalue, heq, hd, collectRestrictions_sameType,
      commitToConversions, TypeMatchKind.atLeast, TypeMatchKind.rank]

theorem caseNominal_mono (env : Env) (m : Bool) (rec : MatchFn)
    (d1 d2 : Nat) (kind : TypeMatchKind)
    (heq : Ty.nominal d1 ≠ Ty.nominal d2) (_hkS : kind ≠ .sameType) :
    MonoRes (matchTypesBody env m rec (.nominal d1) (.nominal d2) .sameType)
      (matchTypesBody env m rec (.nominal d1) (.nominal d2) kind) := by
  have hd : d1 ≠ d2 := fun h => heq (by rw [h])
  apply MonoRes.of_error
  simp [matchTypesBody, Ty.rvalue, heq, hd, collectRestrictions_sameType,
    commitToConversions, TypeMatchKind.atLeast, TypeMatchKind.rank]

set_option maxHeartbeats 4000000 in
theorem matchTypesBody_mono (env : Env) (m : Bool) (rec : MatchFn)
    (ih : MonoIH rec) (t1 t2 : Ty) (kind : TypeMatchKind)
    (h1 : t1.clean = true) (h2 : t2.clean = true) (hk : 1 ≤ kind.rank) :
    MonoRes (matchTypesBody env m rec t1 t2 .sameType)
      (matchTypesBody env m rec t1 t2 kind) := by
  by_cases hkS : kind = .sameType
  · subst hkS
    exact MonoRes.refl
  · have hk2 : 2 ≤ kind.rank := by
      cases kind <;> simp_all [TypeMatchKind.rank]
    by_cases heq : t1 = t2
    · subst heq
      have hA : matchTypesBody env m rec t1 t1 .sameType = .solved := by
        simp [matchTypesBody, Ty.clean_rvalue h1]
      have hB : matchTypesBody env m rec t1 t1 kind = .solved := by
        simp [matchTypesBody]
      rw [hA, hB]
      exact MonoRes.refl
    · cases t1 <;> cases t2
      all_goals first
        | (simp only [Ty.clean] at h1; exact Bool.noConfusion h1)
        | (simp only [Ty.clean] at h2; exact Bool.noConfusion h2)
        | exact caseFn_mono env m rec ih _ _ _ _ _ _ _ _ kind h1 h2 heq hkS hk2
        | exact caseTuple_mono env m rec ih _ _ kind h1 h2 heq hkS hk2
        | exact caseMeta_mono env m rec ih _ _ kind h1 h2 heq hkS hk2
        | exact caseArr_mono env m rec _ _ kind heq hkS
        | exact caseCls_mono env m rec _ _ _ _ kind heq hkS
        | exact caseNominal_mono env m rec _ _ kind heq hkS
        | exact caseBound_mono env m rec _ _ _ _ kind heq hkS
        | (apply MonoRes.of_error;
           simp [matchTypesBody, Ty.rvalue, heq, collectRestrictions_sameType,
             commitToConversions, TypeMatchKind.atLeast, TypeMatchKind.rank])

/-- Monotonicity of the fueled matcher: on clean types, a `SameType` success
persists at every more permissive kind, and a `SameType` deferral never
becomes an error. -/
theorem matchTypes_mono (fuel : Nat) (env : Env) (m : Bool) :
    MonoIH (matchTypes fuel env m) := by
  induction fuel with
  | zero =>
    intro a b k2 _ _ _
    simp [matchTypes, MonoRes]
  | succ n ihf =>
    intro a b k2 ha hb hk
    exact matchTypesBody_mono env m (matchTypes n env m) ihf a b k2 ha hb hk

/-! ## Inputs for the claim theorems -/

/-- A comparator on two solutions where solution 0 beats solution 1. -/
def bestCmpUnique : Nat → Nat → SolutionCompareResult := fun i j =>
  match i, j with
  | 0, 1 => .better
  | 1, 0 => .worse
  | _, _ => .identical

/-- A comparator on three solutions with a comparison cycle: 2 beats 0,
1 beats 2, and 1 is incomparable with 0.  After the ambiguity sweep only
solution 1 survives. -/
def bestCmpAmbig : Nat → Nat → SolutionCompareResult := fun i j =>
  match i, j with
  | 2, 0 => .better
  | 0, 2 => .worse
  | 2, 1 => .worse
  | 1, 2 => .better
  | _, _ => .incomparable

/-- A member environment whose type-member lookup returns a single invalid
declaration. -/
def envBug : MemberEnv := ⟨fun _ _ => [], fun _ => [],
  fun _ _ => [⟨7, true, false, false, false⟩], 99⟩

/-- A member environment in which every lookup comes back empty. -/
def envEmptyM : MemberEnv := ⟨fun _ _ => [], fun _ => [], fun _ _ => [], 99⟩

/-- An oracle environment in which protocol 2 inherits from protocol 1 and
nothing conforms to anything. -/
def envC8 : Env := ⟨fun _ _ => false, fun a b => a == 2 && b == 1,
  fun _ => false, fun _ => false, 0⟩

/-! ## The claim theorems -/

/-- C1.  The spec claims `matchTypes` is monotonic in match-kind
strictness: a `SameType` (Equal) success implies a `Subtype` and a
`Conversion` success on the same pair.  This holds on the lvalue-free,
variadic-free fragment (`Ty.clean`); the unrestricted claim is refuted by
`claim_C1_counterexample` (resolution strips lvalues for `SameType` only,
lines 1581-1587). -/
theorem claim_C1_monotonic (fuel : Nat) (env : Env) (m : Bool) (t1 t2 : Ty)
    (h1 : t1.clean = true) (h2 : t2.clean = true)
    (hs : matchTypes fuel env m t1 t2 .sameType = .solved) :
    matchTypes fuel env m t1 t2 .subtype = .solved ∧
    matchTypes fuel env m t1 t2 .conversion = .solved :=
  ⟨(matchTypes_mono fuel env m t1 t2 .subtype h1 h2 (by decide)).solved hs,
   (matchTypes_mono fuel env m t1 t2 .conversion h1 h2 (by decide)).solved hs⟩

/-- C1, witness: a concrete clean pair (two function types differing in
the `[noreturn]` attribute) matched `SameType`-solved, hence solved at
`Subtype` and `Conversion`. -/
theorem claim_C1_monotonic_witness :
    Ty.clean (.fn (.builtin 0) (.builtin 0) false true) = true ∧
    Ty.clean (.fn (.builtin 0) (.builtin 0) false false) = true ∧
    matchTypes 3 env0 false (.fn (.builtin 0) (.builtin 0) false true)
      (.fn (.builtin 0) (.builtin 0) false false) .sameType = .solved ∧
    (matchTypes 3 env0 false (.fn (.builtin 0) (.builtin 0) false true)
      (.fn (.builtin 0) (.builtin 0) false false) .subtype = .solved ∧
     matchTypes 3 env0 false (.fn (.builtin 0) (.builtin 0) false true)
      (.fn (.builtin 0) (.builtin 0) false false) .conversion = .solved) :=
  ⟨by decide, by decide, by decide,
   claim_C1_monotonic 3 env0 false _ _ (by decide) (by decide) (by decide)⟩

/-- C1, counterexample to the unrestricted claim: matching an implicit
lvalue of `Builtin 0` against `Builtin 0` is `Solved` at `SameType` (both
sides are reduced to rvalues, lines 1581-1587) but `Error` at `Subtype`
(no reduction, no structural case, and the lvalue-to-rvalue restriction
needs `Conversion`). -/
theorem claim_C1_counterexample :
    matchTypes 5 env0 false (.lval false true (.builtin 0)) (.builtin 0)
      .sameType = .solved ∧
    matchTypes 5 env0 false (.lval false true (.builtin 0)) (.builtin 0)
      .subtype = .error := by decide

/-- C2.  The spec claims shuffling `(x: Int, Int)` into `(Int, x: Int)`
fails with a label position mismatch.  In fact `computeTupleShuffle`
matches named elements by name regardless of position (lines 545-577), so
the shuffle succeeds with source mapping `[1, 0]` — with or without
mandatory source labels — while shuffling into `(Int, Int)` succeeds with
the positional mapping `[0, 1]` as claimed. -/
theorem claim_C2_shuffle :
    computeTupleShuffle
      [.mk (some ("x")) (.nominal 1) false false,
       .mk none (.nominal 1) false false]
      [.mk none (.nominal 1) false false,
       .mk (some ("x")) (.nominal 1) false false]
      false = some ([1, 0], []) ∧
    computeTupleShuffle
      [.mk (some ("x")) (.nominal 1) false false,
       .mk none (.nominal 1) false false]
      [.mk none (.nominal 1) false false,
       .mk (some ("x")) (.nominal 1) false false]
      true = some ([1, 0], []) ∧
    computeTupleShuffle
      [.mk (some ("x")) (.nominal 1) false false,
       .mk none (.nominal 1) false false]
      [.mk none (.nominal 1) false false,
       .mk none (.nominal 1) false false]
      false = some ([0, 1], []) := by decide

/-- C2, counterexample: the shuffle from `(x: Int, Int)` into
`(Int, x: Int)` does not fail. -/
theorem claim_C2_counterexample :
    computeTupleShuffle
      [.mk (some ("x")) (.nominal 1) false false,
       .mk none (.nominal 1) false false]
      [.mk none (.nominal 1) false false,
       .mk (some ("x")) (.nominal 1) false false]
      false ≠ none ∧
    computeTupleShuffle
      [.mk (some ("x")) (.nominal 1) false false,
       .mk none (.nominal 1) false false]
      [.mk none (.nominal 1) false false,
       .mk (some ("x")) (.nominal 1) false false]
      true ≠ none := by decide

/-- C3.  The `commit_to_conversions` tail of `matchTypes` (lines
1964-2006): no candidate gives `Unsolved` when a type variable is involved
and `Error` otherwise; one candidate is dispatched directly to its
specific matcher; two or more become a disjunction with one alternative
per candidate, and this call reports `Solved`. -/
theorem claim_C3_commit : ∀ (tv : Bool) (kind : TypeMatchKind),
    commitToConversions [] tv kind =
      (if tv then CommitResult.unsolved else .error) ∧
    (∀ r, commitToConversions [r] tv kind = .single r) ∧
    (∀ r (env : Env) (m : Bool) (rec : MatchFn) (t1 t2 : Ty),
      (match commitToConversions [r] tv kind with
       | CommitResult.unsolved => SolutionKind.unsolved
       | CommitResult.error => .error
       | CommitResult.disjunction _ => .solved
       | CommitResult.single r2 =>
         dispatchRestriction env m rec t1 t2 kind r2) =
        dispatchRestriction env m rec t1 t2 kind r) ∧
    (∀ r1 r2 rest,
      commitToConversions (r1 :: r2 :: rest) tv kind =
        .disjunction ((r1 :: r2 :: rest).map fun r =>
          (if r = .deepEquality then ConstraintKind.equal
           else getConstraintKind kind, r)) ∧
      (∀ (env : Env) (m : Bool) (rec : MatchFn) (t1 t2 : Ty),
        (match commitToConversions (r1 :: r2 :: rest) tv kind with
         | CommitResult.unsolved => SolutionKind.unsolved
         | CommitResult.error => .error
         | CommitResult.disjunction _ => .solved
         | CommitResult.single r3 =>
           dispatchRestriction env m rec t1 t2 kind r3) = .solved)) :=
  fun _ _ =>
    ⟨rfl, fun _ => rfl, fun _ _ _ _ _ _ => rfl,
     fun _ _ _ => ⟨rfl, fun _ _ _ _ _ => rfl⟩⟩

theorem verifyPass_sound (cmp : Nat → Nat → SolutionCompareResult)
    (best : Nat) : ∀ (remaining i : Nat) (losers : List Bool),
    (verifyPass cmp best remaining i losers).1 = false →
    ∀ j, i ≤ j → j < i + remaining → j ≠ best →
      cmp best j = .identical ∨ cmp best j = .better := by
  intro remaining
  induction remaining with
  | zero =>
    intro i losers _ j h1 h2 _
    omega
  | succ rem ih =>
    intro i losers h j h1 h2 hb
    by_cases hib : i = best
    · simp only [verifyPass, if_pos hib] at h
      by_cases hji : j = i
      · exact absurd (hji.trans hib) hb
      · exact ih (i + 1) losers h j (by omega) (by omega) hb
    · simp only [verifyPass, if_neg hib] at h
      by_cases hji : j = i
      · subst hji
        revert h
        cases hc : cmp best j with
        | identical => intro _; exact Or.inl rfl
        | better => intro _; exact Or.inr rfl
        | worse => intro h; simp at h
        | incomparable => intro h; simp at h
      · revert h
        cases hc : cmp best i with
        | identical => intro h; exact ih (i + 1) losers h j (by omega) (by omega) hb
        | better => intro h; exact ih (i + 1) _ h j (by omega) (by omega) hb
        | worse => intro h; simp at h
        | incomparable => intro h; simp at h

/-- C4.  Soundness of `findBestSolution`: a returned best index is one the
verification pass checked against every other solution, so no other
solution beats it (every comparison from it is `identical` or `better`).
The ambiguity-sweep half of the claim is refuted by
`claim_C4_counterexample`: the sweep only prunes the `viable` array, and
the function still reports ambiguity (`none`) even when exactly one
solution survives (lines 3786-3835 never revisit the survivor count). -/
theorem claim_C4_best_sound (cmp : Nat → Nat → SolutionCompareResult)
    (n : Nat) (minimize : Bool) (i : Nat) (l : List Nat)
    (hn : 2 ≤ n) (h : findBestSolution cmp n minimize = (some i, l)) :
    ∀ j, j < n → j ≠ i → cmp i j = .identical ∨ cmp i j = .better := by
  simp only [findBestSolution] at h
  rw [if_neg (by omega), if_neg (by omega)] at h
  by_cases hv : (verifyPass cmp (bestPass cmp (n - 1) 1 0
      (List.replicate n false)).1 n 0
      (bestPass cmp (n - 1) 1 0 (List.replicate n false)).2).1 = false
  · rw [if_pos hv] at h
    have hbi : (bestPass cmp (n - 1) 1 0 (List.replicate n false)).1 = i := by
      have := congrArg Prod.fst h
      simpa using this
    rw [hbi] at hv
    intro j hj hji
    exact verifyPass_sound cmp i n 0 _ hv j (by omega) (by omega) hji
  · rw [if_neg hv] at h
    by_cases hm : minimize = false
    · rw [if_pos hm] at h
      have := congrArg Prod.fst h
      simp at this
    · rw [if_neg hm] at h
      have := congrArg Prod.fst h
      simp at this

/-- C4, witness: with two solutions where solution 0 beats solution 1,
`findBestSolution` returns index 0, which no other solution beats. -/
theorem claim_C4_best_sound_witness :
    (2 ≤ 2 ∧ findBestSolution bestCmpUnique 2 true = (some 0, [0, 1])) ∧
    (∀ j, j < 2 → j ≠ 0 →
      bestCmpUnique 0 j = .identical ∨ bestCmpUnique 0 j = .better) :=
  ⟨⟨by decide, by decide⟩,
   claim_C4_best_sound bestCmpUnique 2 true 0 [0, 1] (by decide) (by decide)⟩

/-- C4, counterexample to the uniqueness half of the claim: on the cyclic
comparator, the ambiguity sweep leaves exactly solution 1, yet
`findBestSolution` still reports ambiguity (`none`) instead of a unique
solution — even though no other solution beats solution 1. -/
theorem claim_C4_counterexample :
    findBestSolution bestCmpAmbig 3 true = (none, [1]) ∧
    (∀ j, j < 3 → j ≠ 1 → bestCmpAmbig j 1 ≠ .better) := by decide

/-- C5.  The two-type-variable `Bind`/`Equal` branch of `matchTypes`
(lines 1594-1630): when the two representatives differ in lvalue-binding
capability the equivalence classes are not merged — with constraint
generation a relational constraint between the representatives is added
and the match reports `Solved`, without it the match is `Unsolved`; the
classes are merged exactly when the capabilities agree. -/
theorem claim_C5_typevar_merge (rep : Nat → Nat) (canBindLValue : Nat → Bool)
    (kind : TypeMatchKind) (tv1 tv2 : Nat)
    (hne : rep tv1 ≠ rep tv2) :
    (canBindLValue (rep tv1) ≠ canBindLValue (rep tv2) →
      matchTypeVariables rep canBindLValue true kind tv1 tv2 =
        .constraintAdded (getConstraintKind kind) (rep tv1) (rep tv2) ∧
      (matchTypeVariables rep canBindLValue true kind tv1 tv2).toSolutionKind
        = .solved ∧
      matchTypeVariables rep canBindLValue false kind tv1 tv2 = .deferred ∧
      (matchTypeVariables rep canBindLValue false kind tv1 tv2).toSolutionKind
        = .unsolved) ∧
    (canBindLValue (rep tv1) = canBindLValue (rep tv2) →
      ∀ g : Bool, matchTypeVariables rep canBindLValue g kind tv1 tv2 =
        .merged (rep tv1) (rep tv2)) := by
  constructor
  · intro hdiff
    refine ⟨?_, ?_, ?_, ?_⟩ <;>
      simp [matchTypeVariables, hne, hdiff, TypeVarMatchResult.toSolutionKind]
  · intro hsame g
    simp [matchTypeVariables, hne, hsame]

/-- C5, witness: with identity representatives where variable 0 can bind
lvalues and variable 1 cannot, the branch adds a constraint (generation
on) or defers (generation off) and never merges. -/
theorem claim_C5_typevar_merge_witness :
    ((fun n : Nat => n) 0 ≠ (fun n : Nat => n) 1) ∧
    (((fun n : Nat => n == 0) ((fun n : Nat => n) 0) ≠
        (fun n : Nat => n == 0) ((fun n : Nat => n) 1) →
      matchTypeVariables (fun n => n) (fun n => n == 0) true .sameType 0 1 =
        .constraintAdded (getConstraintKind .sameType) 0 1 ∧
      (matchTypeVariables (fun n => n) (fun n => n == 0) true
        .sameType 0 1).toSolutionKind = .solved ∧
      matchTypeVariables (fun n => n) (fun n => n == 0) false .sameType 0 1 =
        .deferred ∧
      (matchTypeVariables (fun n => n) (fun n => n == 0) false
        .sameType 0 1).toSolutionKind = .unsolved) ∧
     ((fun n : Nat => n == 0) ((fun n : Nat => n) 0) =
        (fun n : Nat => n == 0) ((fun n : Nat => n) 1) →
      ∀ g : Bool,
        matchTypeVariables (fun n => n) (fun n => n == 0) g .sameType 0 1 =
          .merged 0 1)) :=
  ⟨by decide,
   claim_C5_typevar_merge (fun n => n) (fun n => n == 0) .sameType 0 1
     (by decide)⟩

/-- C6.  The value-to-optional conversion restriction is collected only at
kind `Conversion` or above (lines 1933-1955): matching `Builtin 1` against
`Optional<Builtin 1>` (the `Optional` declaration of `env0` is 0) is
`Error` at `Subtype` and `Solved` at `Conversion`. -/
theorem claim_C6_value_to_optional :
    matchTypes 5 env0 false (.builtin 1) (.bound 0 (.builtin 1)) .subtype
      = .error ∧
    matchTypes 5 env0 false (.builtin 1) (.bound 0 (.builtin 1)) .conversion
      = .solved := by decide

/-- C7.  A `TypeMember` lookup whose result is nonempty but consists only
of invalid declarations: the emptiness check of line 2652 passes, the
invalid declarations are then filtered out (lines 2657-2660), and
`addOverloadSet` is called with an empty choice list, violating its
non-empty assertion (line 1046) — the constraint neither errors nor
defers. -/
theorem claim_C7_invalid_lookup :
    simplifyMemberConstraint envBug .typeMember (.conc (.nominal 3)) ("T")
      = .invariantViolation := by decide

/-- C8.  `simplifyConformsToConstraint` (lines 2322-2360): an unbound
variable defers, and existential containment
(`allowNonConformingExistential`) succeeds exactly when some interface of
the existential equals the target or *inherits from* the target (line
2346: `AP->inheritsFrom(Protocol)`) — the opposite direction from the
spec's "is inherited by the target", refuted by
`claim_C8_counterexample`. -/
theorem claim_C8_conforms (env : Env) (v proto : Nat) (b : Bool) (t : Ty)
    (ps : List Nat) (hps : t.protocols = some ps) :
    simplifyConformsToConstraint env (.tvar v) proto b = .unsolved ∧
    (simplifyConformsToConstraint env (.conc t) proto true = .solved ↔
      ∃ ap ∈ ps, ap = proto ∨ env.inheritsFrom ap proto = true) := by
  constructor
  · rfl
  · have hrv : t.rvalue = t := by
      cases t <;> simp_all [Ty.protocols, Ty.rvalue]
    simp only [simplifyConformsToConstraint, hrv, hps]
    by_cases hany :
        ps.any (fun ap => ap == proto || env.inheritsFrom ap proto) = true
    · rw [if_pos hany]
      simp only [eq_self_iff_true, true_iff]
      simpa [List.any_eq_true, Bool.or_eq_true, beq_iff_eq] using hany
    · rw [if_neg hany]
      constructor
      · intro hx
        cases hx
      · intro hex
        exact absurd
          (by simpa [List.any_eq_true, Bool.or_eq_true, beq_iff_eq] using hex)
          hany

/-- C8, witness: the containment check for the existential `proto 1` at
target protocol 1 succeeds by interface equality, and the deferral and
characterization hold at that input. -/
theorem claim_C8_conforms_witness :
    (Ty.proto 1).protocols = some [1] ∧
    (simplifyConformsToConstraint envC8 (.tvar 0) 1 true = .unsolved ∧
     (simplifyConformsToConstraint envC8 (.conc (.proto 1)) 1 true = .solved ↔
       ∃ ap ∈ [1], ap = 1 ∨ envC8.inheritsFrom ap 1 = true)) :=
  ⟨rfl, claim_C8_conforms envC8 0 1 true (.proto 1) [1] rfl⟩

/-- C8, counterexample to the spec's direction: protocol 2 inherits from
protocol 1 in `envC8`, so by the spec's words ("some interface ... is
inherited by the target") the existential `proto 1` should be contained in
target 2 — but the code checks the interface's `inheritsFrom` on the
target and fails. -/
theorem claim_C8_counterexample :
    specExistentialContainment envC8 [1] 2 = true ∧
    (Ty.proto 1).protocols = some [1] ∧
    simplifyConformsToConstraint envC8 (.conc (.proto 1)) 2 true
      = .error := by decide

/-- C9.  A relational constraint carrying a pre-selected restriction is
simplified by invoking that restriction's matcher directly (lines
2929-3017), but the restriction is recorded only when the result is
`Solved` *and* the constraint is a `Conversion` constraint *and* the
restriction is not `DeepEquality` (which returns at lines 2958-2961 before
the recording switch of lines 3019-3033) — the spec's "whenever that
matcher returns Solved" is refuted by `claim_C9_counterexample`. -/
theorem claim_C9_restricted (fuel : Nat) (env : Env) (m : Bool)
    (ck : ConstraintKind) (r : ConversionRestrictionKind) (t1 t2 : Ty) :
    (simplifyRestrictedConstraint fuel env m ck r t1 t2).2 =
      (if r = .deepEquality then false
       else ((simplifyRestrictedConstraint fuel env m ck r t1 t2).1
          == .solved && ck == ConstraintKind.conversion)) ∧
    (simplifyRestrictedConstraint fuel env m ck .deepEquality t1 t2).1 =
      matchDeepEqualityTypes (matchTypes fuel env m) t1 t2 ∧
    (simplifyRestrictedConstraint fuel env m ck .superclass t1 t2).1 =
      matchSuperclassTypes (matchTypes fuel env m) t1 t2
        (getTypeMatchKind ck) ∧
    (simplifyRestrictedConstraint fuel env m ck .user t1 t2).1 =
      tryUserConversionResult env t1 := by
    refine ⟨?_, rfl, rfl, rfl⟩
    cases r
    case deepEquality =>
      rw [if_pos rfl]
      exact rfl
    all_goals rw [if_neg (fun hx => nomatch hx)]
    all_goals exact rfl

/-- C9, counterexample: a `Conversion` constraint restricted to
`DeepEquality` on identical nominal types is `Solved`, yet the restriction
is not recorded. -/
theorem claim_C9_counterexample :
    simplifyRestrictedConstraint 5 env0 false .conversion .deepEquality
      (.nominal 1) (.nominal 1) = (.solved, false) := by decide

/-- C10.  On a concrete nominal base with an empty `ValueMember` lookup,
a member name that parses as a decimal number (lines 2614-2626) solves to
the base type itself when the parsed *value* is 0 and fails otherwise.
The spec's restriction to the literal string "0" is refuted by
`claim_C10_counterexample`: "00" also parses to 0 and succeeds. -/
theorem claim_C10_decimal_member (env : MemberEnv) (d : Nat) (name : String)
    (v : Nat)
    (hlook : env.lookupMember (.nominal d) name = [])
    (hdec : decimalValue? name = some v) :
    simplifyMemberConstraint env .valueMember (.conc (.nominal d)) name =
      (if v = 0 then .solved [.baseType] else .error) := by
  have hinit : name ≠ ("init") := by
    intro hx
    have hnone : decimalValue? ("init") = none := by decide
    rw [hx, hnone] at hdec
    exact Option.noConfusion hdec
  simp [simplifyMemberConstraint, Ty.rvalue, hinit, hlook, hdec]

/-- C10, witness: the name "0" on a nominal base with empty lookup solves
to the base-type overload choice. -/
theorem claim_C10_decimal_member_witness :
    envEmptyM.lookupMember (.nominal 5) ("0") = [] ∧
    decimalValue? ("0") = some 0 ∧
    simplifyMemberConstraint envEmptyM .valueMember (.conc (.nominal 5)) ("0")
      = (if 0 = 0 then .solved [.baseType] else .error) :=
  ⟨rfl, by decide,
   claim_C10_decimal_member envEmptyM 5 ("0") 0 rfl (by decide)⟩

/-- C10, counterexample: the spec allows only the literal name "0" to
succeed, but "00" — a different decimal name — also parses to value 0 and
is solved to the base type rather than failing. -/
theorem claim_C10_counterexample :
    ("00" : String) ≠ "0" ∧
    simplifyMemberConstraint envEmptyM .valueMember (.conc (.nominal 5))
      ("00") = .solved [.baseType] := by decide
